import Mathlib

/-!
# SIM7600 modem DCE: line interpreters and command operations

A shallow embedding of `components/modem/src/sim7600.c`.

* A C buffer is a `List Char`; a C string is the part of a buffer before
  its first NUL (`cstr`).
* The C library calls the source makes (`strstr`, `strncmp`, `strlen`,
  `sscanf` with ordinary characters, white space and `%d` / `%Nd`) are
  embedded after ISO C.
* The program state (`World`) holds the DCE object, the two globals
  `_sim_rtc` and `_sim_rtc_timezone`, the caller-owned 32-bit cells that the
  battery query writes through pointers, and the automatic `resource` array
  of an executing `sim7600_get_battery_status`.
* The dispatcher (`dte->send_cmd`) is external and is a parameter.
-/

namespace Sim7600

/-! ## C strings and the C library -/

/-- The string terminator, the character with code 0. -/
def NUL : Char := Char.ofNat 0

/-- The C string held in a buffer: the characters before the first NUL. -/
def cstr (buf : List Char) : List Char := buf.takeWhile (fun c => c != NUL)

/-- C `strlen` on the contents of a string. -/
def strlen (s : List Char) : Nat := s.length

/-- C `isspace` in the "C" locale. -/
def isspace (c : Char) : Bool :=
  c == ' ' || c == '\t' || c == '\n' || c == Char.ofNat 11 || c == Char.ofNat 12 || c == '\r'

/-- C `isdigit`. -/
def isdigit (c : Char) : Bool := decide ('0'.toNat ≤ c.toNat ∧ c.toNat ≤ '9'.toNat)

/-- The value of a decimal digit character. -/
def digit_value (c : Char) : Nat := c.toNat - '0'.toNat

/-- C `strstr` on string contents: the offset of the first occurrence of
`needle` in `hay`, `none` for the null pointer. -/
def strstr : List Char → List Char → Option Nat
  | [], needle => if needle = [] then some 0 else none
  | c :: hay, needle =>
    if needle.isPrefixOf (c :: hay) then some 0
    else (strstr hay needle).map (fun k => k + 1)

/-- C `strncmp` on string contents; the end of a list reads as the
terminator. The result is the difference of the first differing characters,
0 when the first `n` characters agree or both strings end before. -/
def strncmp : List Char → List Char → Nat → Int
  | _, _, 0 => 0
  | a, b, n + 1 =>
    let c1 := a.headD NUL
    let c2 := b.headD NUL
    if c1 ≠ c2 then (c1.toNat : Int) - (c2.toNat : Int)
    else if c1 = NUL then 0
    else strncmp a.tail b.tail n

/-- Two's-complement wrap of an integer into the range of `int32_t`. -/
def wrap32 (x : Int) : Int := (x + 2147483648) % 4294967296 - 2147483648

/-- A directive of a `scanf` format: white space, an ordinary character, or
a `%d` conversion with an optional maximum field width. -/
inductive directive where
  | white : directive
  | ordinary : Char → directive
  | decimal : Option Nat → directive
  deriving DecidableEq, Repr

/-- Reads a `scanf` format string into its directives. The first argument is
`none` outside a conversion specification and `some w` inside one, after the
`%`, with `w` the field width read so far. Only `%d` with an optional width
is supported, which is all the source uses. -/
def parse_format_aux : Option (Option Nat) → List Char → List directive
  | _, [] => []
  | none, c :: cs =>
    if c = '%' then parse_format_aux (some none) cs
    else if isspace c then directive.white :: parse_format_aux none cs
    else directive.ordinary c :: parse_format_aux none cs
  | some w, c :: cs =>
    if isdigit c then parse_format_aux (some (some (w.getD 0 * 10 + digit_value c))) cs
    else if c = 'd' then directive.decimal w :: parse_format_aux none cs
    else []

/-- The directives of a format string. -/
def parse_format (fmt : List Char) : List directive := parse_format_aux none fmt

/-- Value of a run of decimal digits. -/
def decimal_value (ds : List Char) : Nat :=
  ds.foldl (fun acc c => acc * 10 + digit_value c) 0

/-- One `%d` conversion: skip white space, then take the longest sequence of
at most `width` characters that is an optional sign followed by digits. It
fails when the input is exhausted or when there is no digit. The value is
stored in an `int`; ISO C leaves a value outside its range undefined, the
embedding wraps it modulo 2^32. The result is the value and the rest of the
input. -/
def scan_decimal (width : Option Nat) (inp : List Char) : Option (Int × List Char) :=
  let inp := inp.dropWhile isspace
  let field := match width with
    | none => inp
    | some n => inp.take n
  match field with
  | [] => none
  | c :: t =>
    if c = '-' then
      let ds := t.takeWhile isdigit
      if ds = [] then none
      else some (wrap32 (-(decimal_value ds : Int)), inp.drop (1 + ds.length))
    else if c = '+' then
      let ds := t.takeWhile isdigit
      if ds = [] then none
      else some (wrap32 (decimal_value ds : Int), inp.drop (1 + ds.length))
    else
      let ds := (c :: t).takeWhile isdigit
      if ds = [] then none
      else some (wrap32 (decimal_value ds : Int), inp.drop ds.length)

/-- Runs the directives of a format over the input. The result lists the
values of the conversions that were assigned, in order; the run stops at the
first directive that fails. -/
def sscanf_run : List directive → List Char → List Int
  | [], _ => []
  | directive.white :: ds, inp => sscanf_run ds (inp.dropWhile isspace)
  | directive.ordinary c :: ds, inp =>
    match inp with
    | [] => []
    | x :: rest => if x = c then sscanf_run ds rest else []
  | directive.decimal w :: ds, inp =>
    match scan_decimal w inp with
    | none => []
    | some (v, rest) => v :: sscanf_run ds rest

/-- C `sscanf` on string contents with `int *` arguments: the values
assigned to the first, second, ... argument. Arguments beyond the length of
the result are left as they were. -/
def sscanf (str fmt : List Char) : List Int := sscanf_run (parse_format fmt) str

/-! ## trimLeading -/

/-- The first loop of `trimLeading`: advance `index` while `str[index]` is a
space, tab or newline. A read outside the buffer gives `none`. -/
def trimLeading_find (str : List Char) : Nat → Nat → Option Nat
  | 0, _ => none
  | fuel + 1, index =>
    match str[index]? with
    | none => none
    | some c =>
      if c = ' ' ∨ c = '\t' ∨ c = '\n' then trimLeading_find str fuel (index + 1)
      else some index

/-- Store of a character at an index of a buffer; `none` when the index is
outside the buffer. -/
def poke (str : List Char) (i : Nat) (c : Char) : Option (List Char) :=
  if i < str.length then some (str.set i c) else none

/-- The second loop of `trimLeading`: while `str[i + index]` is not NUL, copy
it to `str[i]` and advance `i`. The result is the buffer and the final `i`;
a read or a write outside the buffer gives `none`. -/
def trimLeading_shift (index : Nat) : Nat → List Char → Nat → Option (List Char × Nat)
  | 0, _, _ => none
  | fuel + 1, str, i =>
    match str[i + index]? with
    | none => none
    | some c =>
      if c ≠ NUL then
        match poke str i c with
        | none => none
        | some str1 => trimLeading_shift index fuel str1 (i + 1)
      else some (str, i)

/-- `trimLeading(str)`: the buffer after the call, `none` when the function
reads or writes outside the buffer. Each loop reads a new index on every
iteration, so `str.length + 1` iterations are enough to either leave the
loop or leave the buffer. -/
def trimLeading (str : List Char) : Option (List Char) :=
  match trimLeading_find str (str.length + 1) 0 with
  | none => none
  | some index =>
    if index ≠ 0 then
      match trimLeading_shift index (str.length + 1) str 0 with
      | none => none
      | some (str1, i) => poke str1 i NUL
    else some str

/-! ## Program state -/

/-- ESP-IDF status codes are plain integers. -/
abbrev esp_err_t := Int

/-- `ESP_OK` of ESP-IDF. -/
def ESP_OK : esp_err_t := 0

/-- `ESP_FAIL` of ESP-IDF. -/
def ESP_FAIL : esp_err_t := -1

/-- Modelled from the spec: the completion state of a session, whose C
enumeration is declared in a header outside the sources. The source names
`MODEM_STATE_SUCCESS` and `MODEM_STATE_FAIL`; the spec gives the three
values Pending, Success and Fail. -/
inductive modem_state_t where
  | MODEM_STATE_PENDING : modem_state_t
  | MODEM_STATE_SUCCESS : modem_state_t
  | MODEM_STATE_FAIL : modem_state_t
  deriving DecidableEq, Repr

open modem_state_t

/-- Modelled from the spec: the generic success token, the macro
`MODEM_RESULT_CODE_SUCCESS` of a header outside the sources. -/
def MODEM_RESULT_CODE_SUCCESS : List Char := "OK".toList

/-- Modelled from the spec: the generic error token, the macro
`MODEM_RESULT_CODE_ERROR` of a header outside the sources. -/
def MODEM_RESULT_CODE_ERROR : List Char := "ERROR".toList

/-- The values a `handle_line` function pointer takes: the three
interpreters of this file, or a handler of the base profile. -/
inductive line_handler where
  | sim7600_handle_cclk : line_handler
  | sim7600_handle_cbc : line_handler
  | example_default_handle : line_handler
  | base_profile : Nat → line_handler
  deriving DecidableEq, Repr

/-- The fields of `modem_dce_t` the source uses. -/
structure modem_dce_t where
  state : modem_state_t
  handle_line : line_handler
  deriving DecidableEq, Repr

/-- The fields of `bg96_modem_dce_t` the source uses. `priv_resource` is the
null pointer (`none`) or points to the `resource` array of the activation of
`sim7600_get_battery_status` with the given number. -/
structure bg96_modem_dce_t where
  parent : modem_dce_t
  priv_resource : Option Nat
  deriving DecidableEq, Repr

/-- The fields of C `struct tm`. -/
structure tm where
  tm_sec : Int
  tm_min : Int
  tm_hour : Int
  tm_mday : Int
  tm_mon : Int
  tm_year : Int
  tm_wday : Int
  tm_yday : Int
  tm_isdst : Int
  deriving DecidableEq, Repr

/-- The automatic array `uint32_t *resource[3] = {bcs, bcl, voltage}` of one
activation of `sim7600_get_battery_status`: the number of the activation and
the three addresses the array holds. -/
structure resource_frame where
  activation : Nat
  bcs : Nat
  bcl : Nat
  voltage : Nat
  deriving DecidableEq, Repr

/-- The program state. `cells` are the caller-owned 32-bit cells, by
address, read as `int32_t`. `frame` is the `resource` array of the
activation of `sim7600_get_battery_status` that is executing, if any;
`activations` counts the activations entered so far. `cmd_done` counts the
completion notifications given to the dispatcher and
`process_cmd_done_result` is the status the dispatcher answers them with. -/
structure World where
  bg96_dce : bg96_modem_dce_t
  _sim_rtc : tm
  _sim_rtc_timezone : Int
  cells : Nat → Int
  frame : Option resource_frame
  activations : Nat
  cmd_done : Nat
  process_cmd_done_result : esp_err_t

/-- Assignment `dce->state = s`. -/
def World.set_state (w : World) (s : modem_state_t) : World :=
  { w with bg96_dce := { w.bg96_dce with parent := { w.bg96_dce.parent with state := s } } }

/-- Assignment `dce->handle_line = h`. -/
def World.set_handle_line (w : World) (h : line_handler) : World :=
  { w with bg96_dce := { w.bg96_dce with parent := { w.bg96_dce.parent with handle_line := h } } }

/-- Assignment `bg96_dce->priv_resource = p`. -/
def World.set_priv_resource (w : World) (p : Option Nat) : World :=
  { w with bg96_dce := { w.bg96_dce with priv_resource := p } }

/-- Store of a 32-bit value through a pointer to a cell. -/
def World.store (w : World) (addr : Nat) (v : Int) : World :=
  { w with cells := fun a => if a = addr then v else w.cells a }

/-- Modelled from the spec: `esp_modem_process_command_done`, defined outside
the sources, marks the command completed with the given state: it stores
the state in the session and notifies the dispatcher, whose answer it
returns. -/
def esp_modem_process_command_done (w : World) (state : modem_state_t) : esp_err_t × World :=
  (w.process_cmd_done_result, { w.set_state state with cmd_done := w.cmd_done + 1 })

/-! ## Line interpreters -/

/-- The `scanf` format of the clock reply. -/
def cclk_format : List Char := "+CCLK: \"%2d/%2d/%2d,%2d:%2d:%2d%3d\"".toList

/-- The `scanf` format of the battery reply. -/
def cbc_format : List Char := "+CBC: %d.%dV".toList

/-- The generic completion rule shared by the three interpreters:
`if (strstr(line, OK)) ... else if (strstr(line, ERROR)) ...`, starting from
`err = ESP_FAIL`. -/
def handle_result_code (w : World) (s : List Char) : esp_err_t × World :=
  if (strstr s MODEM_RESULT_CODE_SUCCESS).isSome then
    esp_modem_process_command_done w MODEM_STATE_SUCCESS
  else if (strstr s MODEM_RESULT_CODE_ERROR).isSome then
    esp_modem_process_command_done w MODEM_STATE_FAIL
  else (ESP_FAIL, w)

/-- `example_default_handle(dce, line)`: the status returned and the state
after the call. The line is not written. -/
def example_default_handle (w : World) (line : List Char) : esp_err_t × World :=
  handle_result_code w (cstr line)

/-- `sim7600_handle_cclk(dce, line)`: the status returned and the state after
the call. The line is not written. What `printf` writes to the console is
not part of the state. -/
def sim7600_handle_cclk (w : World) (line : List Char) : esp_err_t × World :=
  let r := handle_result_code w (cstr line)
  let err := r.1
  let w := r.2
  if strncmp (cstr line) "+CCLK".toList (strlen "+CCLK".toList) = 0 then
    let vals := sscanf (cstr line) cclk_format
    let rtc : tm :=
      { w._sim_rtc with
        tm_year := vals.getD 0 w._sim_rtc.tm_year
        tm_mon := vals.getD 1 w._sim_rtc.tm_mon
        tm_mday := vals.getD 2 w._sim_rtc.tm_mday
        tm_hour := vals.getD 3 w._sim_rtc.tm_hour
        tm_min := vals.getD 4 w._sim_rtc.tm_min
        tm_sec := vals.getD 5 w._sim_rtc.tm_sec }
    let timezone := vals.getD 6 w._sim_rtc_timezone
    let rtc : tm := { rtc with tm_year := wrap32 (wrap32 (rtc.tm_year + 2000) - 1900) }
    let timezone := Int.tdiv timezone 4
    (ESP_OK, { w with _sim_rtc := rtc, _sim_rtc_timezone := timezone })
  else (err, w)

/-- `sim7600_handle_cbc(dce, line)`: the status returned, the state after the
call and the line buffer after the call, which `trimLeading` writes. The
result is `none` when `trimLeading` leaves the buffer or when
`priv_resource` is dereferenced while it does not point to a live
`resource` array. -/
def sim7600_handle_cbc (w : World) (line : List Char) : Option (esp_err_t × World × List Char) :=
  match trimLeading line with
  | none => none
  | some lines =>
    let r := handle_result_code w (cstr lines)
    let err := r.1
    let w := r.2
    if strncmp (cstr lines) "+CBC".toList (strlen "+CBC".toList) = 0 then
      match w.bg96_dce.priv_resource, w.frame with
      | some p, some cbc =>
        if p = cbc.activation then
          let vals := sscanf (cstr lines) cbc_format
          let volts : Int := vals.getD 0 0
          let fraction : Int := vals.getD 1 0
          let w := w.store cbc.bcs (-1)
          let w := w.store cbc.bcl (-1)
          let w := w.store cbc.voltage (wrap32 (wrap32 (volts * 1000) + fraction))
          some (ESP_OK, w, lines)
        else none
      | _, _ => none
    else some (err, w, lines)

/-! ## Command operations -/

/-- Modelled from the spec: the timeout argument of a command submission,
either the default command timeout (the macro
`MODEM_COMMAND_TIMEOUT_DEFAULT` of a header outside the sources) or a number
of milliseconds. -/
inductive modem_timeout where
  | MODEM_COMMAND_TIMEOUT_DEFAULT : modem_timeout
  | ms : Nat → modem_timeout
  deriving DecidableEq, Repr

open modem_timeout

/-- The external dispatcher: `send_cmd` transmits a command and blocks until
the command completes or times out; it returns a status and may change the
state in any way. -/
structure modem_dte_t where
  send_cmd : World → String → modem_timeout → esp_err_t × World

/-- What an operation does that is visible outside the state: a command
submitted (with the status `send_cmd` returned and the completion state
right after), an error logged, an information logged. -/
inductive event where
  | sent : String → modem_timeout → esp_err_t → modem_state_t → event
  | loge : String → event
  | logi : String → event
  deriving DecidableEq, Repr

/-- The result of an operation: status, state, and the events in order. -/
structure outcome where
  ret : esp_err_t
  world : World
  trace : List event

/-- `dte->send_cmd(dte, cmd, timeout)` with the submission recorded. -/
def submit (dte : modem_dte_t) (w : World) (cmd : String) (t : modem_timeout) :
    esp_err_t × World × event :=
  let r := dte.send_cmd w cmd t
  (r.1, r.2, event.sent cmd t r.1 r.2.bg96_dce.parent.state)

/-- `sim7600_get_battery_status(dce, bcs, bcl, voltage)`. The `resource`
array is created on entry and its lifetime ends on return. `DCE_CHECK(a,
str, err)` logs `str` as an error and jumps to `err` when `a` is false. -/
def sim7600_get_battery_status (dte : modem_dte_t) (w : World) (bcs bcl voltage : Nat) :
    outcome :=
  let resource : resource_frame :=
    { activation := w.activations, bcs := bcs, bcl := bcl, voltage := voltage }
  let w : World := { w with frame := some resource, activations := w.activations + 1 }
  let w := w.set_priv_resource (some resource.activation)
  let w := w.set_handle_line line_handler.sim7600_handle_cbc
  let r := submit dte w "AT+CBC\r" MODEM_COMMAND_TIMEOUT_DEFAULT
  let w := r.2.1
  if r.1 ≠ ESP_OK then
    { ret := ESP_FAIL, world := { w with frame := none },
      trace := [r.2.2, event.loge "send command failed"] }
  else if w.bg96_dce.parent.state ≠ MODEM_STATE_SUCCESS then
    { ret := ESP_FAIL, world := { w with frame := none },
      trace := [r.2.2, event.loge "inquire battery status failed"] }
  else
    { ret := ESP_OK, world := { w with frame := none },
      trace := [r.2.2, event.logi "inquire battery status ok"] }

/-- `sim7600_NetTimeSetup(dce)`. -/
def sim7600_NetTimeSetup (dte : modem_dte_t) (w : World) : outcome :=
  let w := w.set_handle_line line_handler.example_default_handle
  let r1 := submit dte w "AT+CCLK?\r" MODEM_COMMAND_TIMEOUT_DEFAULT
  let w := r1.2.1
  if r1.1 ≠ ESP_OK then
    { ret := ESP_FAIL, world := w, trace := [r1.2.2, event.loge "send command failed"] }
  else if w.bg96_dce.parent.state ≠ MODEM_STATE_SUCCESS then
    { ret := ESP_FAIL, world := w, trace := [r1.2.2, event.loge "send AT+CCLK? failed"] }
  else
    let t1 := [r1.2.2, event.logi "inquire clock ok"]
    let w := w.set_handle_line line_handler.example_default_handle
    let r2 := submit dte w "AT+CNTP=\"ntp.time.nl\",28\r" (ms 5000)
    let w := r2.2.1
    if r2.1 ≠ ESP_OK then
      { ret := ESP_FAIL, world := w, trace := t1 ++ [r2.2.2, event.loge "send command failed"] }
    else if w.bg96_dce.parent.state ≠ MODEM_STATE_SUCCESS then
      { ret := ESP_FAIL, world := w,
        trace := t1 ++ [r2.2.2, event.loge "send AT+CLTS=1 failed"] }
    else
      let t2 := t1 ++ [r2.2.2, event.logi "inquire clock ok"]
      let w := w.set_handle_line line_handler.example_default_handle
      let r3 := submit dte w "AT+CNTP\r" (ms 5000)
      let w := r3.2.1
      if r3.1 ≠ ESP_OK then
        { ret := ESP_FAIL, world := w,
          trace := t2 ++ [r3.2.2, event.loge "send command failed"] }
      else if w.bg96_dce.parent.state ≠ MODEM_STATE_SUCCESS then
        { ret := ESP_FAIL, world := w,
          trace := t2 ++ [r3.2.2, event.loge "send AT+CLTS=1 failed"] }
      else
        { ret := ESP_OK, world := w,
          trace := t2 ++ [r3.2.2, event.logi "inquire clock ok"] }

/-- `sim7600_get_NetTime(dce)`. -/
def sim7600_get_NetTime (dte : modem_dte_t) (w : World) : outcome :=
  let w := w.set_handle_line line_handler.sim7600_handle_cclk
  let r := submit dte w "AT+CCLK?\r" MODEM_COMMAND_TIMEOUT_DEFAULT
  let w := r.2.1
  if r.1 ≠ ESP_OK then
    { ret := ESP_FAIL, world := w, trace := [r.2.2, event.loge "send command failed"] }
  else if w.bg96_dce.parent.state ≠ MODEM_STATE_SUCCESS then
    { ret := ESP_FAIL, world := w, trace := [r.2.2, event.loge "send AT+CCLK? failed"] }
  else
    { ret := ESP_OK, world := w, trace := [r.2.2, event.logi "inquire clock ok"] }

/-! ## Sample states -/

/-- A state with the globals as they are initialised (`_sim_rtc` zeroed,
`_sim_rtc_timezone = 7`), all cells zero and no operation executing. -/
def world0 : World :=
  { bg96_dce :=
      { parent := { state := MODEM_STATE_PENDING, handle_line := line_handler.base_profile 0 },
        priv_resource := none },
    _sim_rtc := ⟨0, 0, 0, 0, 0, 0, 0, 0, 0⟩,
    _sim_rtc_timezone := 7,
    cells := fun _ => 0,
    frame := none,
    activations := 0,
    cmd_done := 0,
    process_cmd_done_result := ESP_OK }

/-- The state `world0` while a battery query with outputs at the addresses
0, 1 and 2 is executing. -/
def world_cbc : World :=
  { world0 with
    bg96_dce :=
      { parent := { state := MODEM_STATE_PENDING,
                    handle_line := line_handler.sim7600_handle_cbc },
        priv_resource := some 0 },
    frame := some { activation := 0, bcs := 0, bcl := 1, voltage := 2 },
    activations := 1 }

/-! ## Specification vocabulary -/

/-- The characters `trimLeading` removes: space, tab and newline. -/
def is_trim_char (c : Char) : Bool := c == ' ' || c == '\t' || c == '\n'

/-- The character of a decimal digit; the argument is taken modulo 10. -/
def digit_char (d : Nat) : Char := Char.ofNat ('0'.toNat + d % 10)

/-- A two-digit decimal field. -/
def two_digits (n : Fin 100) : List Char := [digit_char (n.val / 10), digit_char n.val]

/-- A signed number: the magnitude, negated when `neg` holds. -/
def signed (neg : Bool) (n : Nat) : Int := if neg then -(n : Int) else (n : Int)

/-- The clock reply `+CCLK: "YY/MM/DD,hh:mm:ss±ZZ"` with two-digit fields;
the sign of the offset is `-` when `neg` holds and `+` otherwise. -/
def cclk_line (YY MM DD hh mm ss : Fin 100) (neg : Bool) (ZZ : Fin 100) : List Char :=
  ['+', 'C', 'C', 'L', 'K', ':', ' ', '"'] ++ (two_digits YY ++ '/' :: (two_digits MM ++
    '/' :: (two_digits DD ++ ',' :: (two_digits hh ++ ':' :: (two_digits mm ++
    ':' :: (two_digits ss ++ (if neg then '-' else '+') :: (two_digits ZZ ++ ['"'])))))))

/-- The battery reply `+CBC: V.FV` for two digit runs `V` and `F`. -/
def cbc_line (V F : List Char) : List Char :=
  ['+', 'C', 'B', 'C', ':', ' '] ++ (V ++ '.' :: (F ++ ['V']))

/-- The submissions of a trace, in order: the command, the status `send_cmd`
returned and the completion state right after. -/
def submissions : List event → List (String × esp_err_t × modem_state_t)
  | [] => []
  | event.sent cmd _ r st :: tr => (cmd, r, st) :: submissions tr
  | event.loge _ :: tr => submissions tr
  | event.logi _ :: tr => submissions tr

/-- A submission succeeded: the send returned `ESP_OK` and left the
completion state Success. -/
def step_succeeded (x : String × esp_err_t × modem_state_t) : Prop :=
  x.2.1 = ESP_OK ∧ x.2.2 = MODEM_STATE_SUCCESS

/-- The fixed order of the commands of the network time setup. -/
def NetTimeSetup_commands : List String :=
  ["AT+CCLK?\r", "AT+CNTP=\"ntp.time.nl\",28\r", "AT+CNTP\r"]

/-- A dispatcher that reports every command as completed with Success and
touches nothing else. -/
def dte_success : modem_dte_t :=
  { send_cmd := fun w _ _ => (ESP_OK, w.set_state MODEM_STATE_SUCCESS) }

/-- The diagnostic reasons of a trace, in order: the messages logged as
errors. -/
def reasons : List event → List String
  | [] => []
  | event.sent _ _ _ _ :: tr => reasons tr
  | event.loge msg :: tr => msg :: reasons tr
  | event.logi _ :: tr => reasons tr

/-- A dispatcher that transmits every command, reports the command `cmd` as
completed with Fail and every other command as completed with Success. -/
def dte_fail_on (cmd : String) : modem_dte_t :=
  { send_cmd := fun w c _ =>
      (ESP_OK, w.set_state (if c = cmd then MODEM_STATE_FAIL else MODEM_STATE_SUCCESS)) }

/-- The call `dce->handle_line(dce, line)` through the function pointer, for
the three interpreters of this file: the status, the state and the line
buffer after the call. The generic interpreter and the clock parser take the
line as `const char *` and pass it only to `strstr`, `strncmp` and `sscanf`,
so the buffer is returned as it was. Handlers of the base profile are not
part of the sources. -/
def handle_line_call (h : line_handler) (w : World) (line : List Char) :
    Option (esp_err_t × World × List Char) :=
  match h with
  | line_handler.example_default_handle =>
    some ((example_default_handle w line).1, (example_default_handle w line).2, line)
  | line_handler.sim7600_handle_cclk =>
    some ((sim7600_handle_cclk w line).1, (sim7600_handle_cclk w line).2, line)
  | line_handler.sim7600_handle_cbc => sim7600_handle_cbc w line
  | line_handler.base_profile _ => none

/-- What the dispatcher answers to one step of the network time setup
started in state `w`: the command as submitted with the generic interpreter
installed, the status `send_cmd` returns and the completion state it
leaves. -/
def step_answer (dte : modem_dte_t) (w : World) (cmd : String) (t : modem_timeout) :
    String × esp_err_t × modem_state_t :=
  (cmd,
    (dte.send_cmd (w.set_handle_line line_handler.example_default_handle) cmd t).1,
    (dte.send_cmd (w.set_handle_line line_handler.example_default_handle)
      cmd t).2.bg96_dce.parent.state)

/-- The state the dispatcher leaves after one step of the network time setup
started in state `w`. -/
def step_world (dte : modem_dte_t) (w : World) (cmd : String) (t : modem_timeout) : World :=
  (dte.send_cmd (w.set_handle_line line_handler.example_default_handle) cmd t).2

/-! ## Lemmas on C strings -/

theorem cstr_append_nul (s rest : List Char) (h : NUL ∉ s) : cstr (s ++ NUL :: rest) = s := by
  unfold cstr
  induction s with
  | nil => simp
  | cons c t ih =>
    have hc : c ≠ NUL := fun e => h (by simp [e])
    have ht : NUL ∉ t := fun e => h (by simp [e])
    simp [List.takeWhile_cons, hc, ih ht]

/-! ## Lemmas on trimLeading -/

theorem trimLeading_find_run (pre : List Char) (c0 : Char) (post : List Char)
    (hpre : ∀ c ∈ pre, is_trim_char c = true) (hc0 : is_trim_char c0 = false) :
    ∀ (fuel k : Nat), k ≤ pre.length → pre.length - k + 1 ≤ fuel →
      trimLeading_find (pre ++ c0 :: post) fuel k = some pre.length := by
  intro fuel
  induction fuel with
  | zero => intro k _ h; omega
  | succ n ih =>
    intro k hk hf
    unfold trimLeading_find
    rcases Nat.lt_or_ge k pre.length with hlt | hge
    · have hget : (pre ++ c0 :: post)[k]? = some pre[k] := by
        rw [List.getElem?_append_left hlt, List.getElem?_eq_getElem hlt]
      have ht := hpre pre[k] (List.getElem_mem hlt)
      simp only [hget]
      have : (pre[k] = ' ' ∨ pre[k] = '\t' ∨ pre[k] = '\n') := by
        simpa [is_trim_char, or_assoc] using ht
      rw [if_pos this]
      exact ih (k + 1) hlt (by omega)
    · have hk2 : k = pre.length := by omega
      subst hk2
      have hget : (pre ++ c0 :: post)[pre.length]? = some c0 := by
        rw [List.getElem?_append_right (Nat.le_refl _)]
        simp
      simp only [hget]
      have : ¬ (c0 = ' ' ∨ c0 = '\t' ∨ c0 = '\n') := by
        simpa [is_trim_char, and_assoc] using hc0
      rw [if_neg this]

theorem trimLeading_shift_run (pre body rest : List Char) (hbody : NUL ∉ body) :
    ∀ (fuel i : Nat), i ≤ body.length → body.length - i + 1 ≤ fuel →
      trimLeading_shift pre.length fuel
          (body.take i ++ (pre ++ body ++ NUL :: rest).drop i) i
        = some (body ++ (pre ++ body ++ NUL :: rest).drop body.length, body.length) := by
  intro fuel
  induction fuel with
  | zero => intro i _ h; omega
  | succ n ih =>
    intro i hi hf
    unfold trimLeading_shift
    have hlen : (body.take i).length = i := by simp [hi]
    have hget : (body.take i ++ (pre ++ body ++ NUL :: rest).drop i)[i + pre.length]?
        = (body ++ NUL :: rest)[i]? := by
      rw [List.getElem?_append_right (by omega), hlen, List.getElem?_drop,
        List.append_assoc, List.getElem?_append_right (by omega)]
      congr 1
      omega
    rw [hget]
    rcases Nat.lt_or_ge i body.length with hlt | hge
    · have hb : (body ++ NUL :: rest)[i]? = some body[i] := by
        rw [List.getElem?_append_left hlt, List.getElem?_eq_getElem hlt]
      have hne : body[i] ≠ NUL := fun e => hbody (e ▸ List.getElem_mem hlt)
      have hi3 : i < (body.take i ++ (pre ++ body ++ NUL :: rest).drop i).length := by
        simp
        omega
      simp only [hb, ne_eq, hne, not_false_eq_true, if_true, poke, hi3]
      have hset : (body.take i ++ (pre ++ body ++ NUL :: rest).drop i).set i body[i]
          = body.take (i + 1) ++ (pre ++ body ++ NUL :: rest).drop (i + 1) := by
        have hi2 : i < (pre ++ body ++ NUL :: rest).length := by
          simp; omega
        rw [List.set_append_right _ _ (by omega), hlen, Nat.sub_self,
          List.drop_eq_getElem_cons hi2, List.set_cons_zero]
        have ht : body.take (i + 1) = body.take i ++ [body[i]] := by
          rw [List.take_succ, List.getElem?_eq_getElem hlt]
          rfl
        rw [ht]
        simp only [List.append_assoc, List.singleton_append]
      rw [hset]
      exact ih (i + 1) hlt (by omega)
    · have hi2 : i = body.length := by omega
      subst hi2
      have hb : (body ++ NUL :: rest)[body.length]? = some NUL := by
        rw [List.getElem?_append_right (Nat.le_refl _)]
        simp
      simp [hb]

theorem is_trim_char_NUL : is_trim_char NUL = false := by decide

theorem dropWhile_trim_head (s rest : List Char) :
    ∃ c0 post, s.dropWhile is_trim_char ++ NUL :: rest = c0 :: post ∧ is_trim_char c0 = false := by
  cases hd : s.dropWhile is_trim_char with
  | nil => exact ⟨NUL, rest, rfl, is_trim_char_NUL⟩
  | cons c t =>
    refine ⟨c, t ++ NUL :: rest, rfl, ?_⟩
    have := List.head_dropWhile_not is_trim_char s (by simp [hd])
    simpa [hd] using this

/-- The buffer `trimLeading` leaves for a NUL-terminated buffer: the string
without its leading space/tab/newline run, a terminator, and the bytes of the
original buffer that follow that position. -/
theorem trimLeading_eq (s rest : List Char) (h : NUL ∉ s) :
    trimLeading (s ++ NUL :: rest)
      = some (s.dropWhile is_trim_char
          ++ NUL :: (s ++ NUL :: rest).drop ((s.dropWhile is_trim_char).length + 1)) := by
  obtain ⟨c0, post, hpost, hc0⟩ := dropWhile_trim_head s rest
  have hsplit : s ++ NUL :: rest
      = s.takeWhile is_trim_char ++ (s.dropWhile is_trim_char ++ NUL :: rest) := by
    rw [← List.append_assoc, List.takeWhile_append_dropWhile]
  have hpre : ∀ c ∈ s.takeWhile is_trim_char, is_trim_char c = true :=
    fun c hc => List.mem_takeWhile_imp hc
  have hbody : NUL ∉ s.dropWhile is_trim_char :=
    fun hm => h ((List.dropWhile_suffix is_trim_char).subset hm)
  have hfind : trimLeading_find (s ++ NUL :: rest) ((s ++ NUL :: rest).length + 1) 0
      = some (s.takeWhile is_trim_char).length := by
    have hl : (s.takeWhile is_trim_char).length ≤ s.length :=
      List.IsPrefix.length_le ( List.takeWhile_prefix is_trim_char)
    have := trimLeading_find_run (s.takeWhile is_trim_char) c0 post hpre hc0
      ((s ++ NUL :: rest).length + 1) 0 (Nat.zero_le _) (by simp; omega)
    rw [← hpost, ← hsplit] at this
    exact this
  unfold trimLeading
  rw [hfind]
  by_cases hz : (s.takeWhile is_trim_char).length = 0
  · have hnil : s.takeWhile is_trim_char = [] := List.length_eq_zero.mp hz
    have hd : s.dropWhile is_trim_char = s := by
      have := List.takeWhile_append_dropWhile is_trim_char s
      rw [hnil] at this
      simpa using this
    simp [hz, hd]
  · have hlen : (s.dropWhile is_trim_char).length ≤ s.length :=
      (List.dropWhile_suffix is_trim_char).length_le
    have hshift := trimLeading_shift_run (s.takeWhile is_trim_char)
      (s.dropWhile is_trim_char) rest hbody ((s ++ NUL :: rest).length + 1) 0
      (Nat.zero_le _) (by simp; omega)
    have horig : s.takeWhile is_trim_char ++ s.dropWhile is_trim_char ++ NUL :: rest
        = s ++ NUL :: rest := by
      rw [List.takeWhile_append_dropWhile]
    rw [horig] at hshift
    simp only [List.take_zero, List.nil_append, List.drop_zero] at hshift
    have hlt : (s.dropWhile is_trim_char).length < (s ++ NUL :: rest).length := by
      simp; omega
    have hlt2 : (s.dropWhile is_trim_char).length
        < (s.dropWhile is_trim_char
            ++ (s ++ NUL :: rest).drop (s.dropWhile is_trim_char).length).length := by
      simp
      omega
    simp only [ne_eq, hz, not_false_eq_true, if_true, hshift, poke, hlt2]
    rw [List.set_append_right _ _ (Nat.le_refl _), Nat.sub_self,
      List.drop_eq_getElem_cons hlt, List.set_cons_zero]

/-- The buffer `trimLeading` leaves, with the tail left anonymous: it keeps
the buffer at its length and is the old tail when nothing is removed. -/
theorem trimLeading_result (s rest : List Char) (h : NUL ∉ s) :
    ∃ tail, trimLeading (s ++ NUL :: rest) = some (s.dropWhile is_trim_char ++ NUL :: tail)
      ∧ (s.dropWhile is_trim_char).length + tail.length = s.length + rest.length
      ∧ (s.takeWhile is_trim_char = [] → tail = rest) := by
  have hlen : (s.dropWhile is_trim_char).length ≤ s.length :=
    (List.dropWhile_suffix is_trim_char).length_le
  refine ⟨_, trimLeading_eq s rest h, ?_, ?_⟩
  · simp
    omega
  · intro hnil
    have hd : s.dropWhile is_trim_char = s := by
      have := List.takeWhile_append_dropWhile is_trim_char s
      rw [hnil] at this
      simpa using this
    rw [hd]
    simp

/-! ## Lemmas on the C library -/

theorem char_toNat_sub_ne (c1 c2 : Char) (h : c1 ≠ c2) :
    (c1.toNat : Int) - (c2.toNat : Int) ≠ 0 := by
  intro e
  apply h
  have e2 : c1.toNat = c2.toNat := by omega
  rw [← Char.ofNat_toNat c1, ← Char.ofNat_toNat c2, e2]

theorem strstr_isSome_iff (needle : List Char) :
    ∀ hay : List Char, (strstr hay needle).isSome = true ↔ needle <:+: hay := by
  intro hay
  induction hay with
  | nil =>
    unfold strstr
    by_cases hn : needle = []
    · simp [hn]
    · simp [hn]
  | cons c t ih =>
    unfold strstr
    rw [List.infix_cons_iff]
    by_cases hp : needle.isPrefixOf (c :: t) = true
    · simp only [hp, if_true, Option.isSome_some, true_iff]
      exact Or.inl (Iff.mp List.isPrefixOf_iff_prefix hp)
    · have hnp : ¬ needle <+: c :: t := fun e => hp (Iff.mpr List.isPrefixOf_iff_prefix e)
      simp only [hp, Bool.false_eq_true, if_false, Option.isSome_map', ih, hnp, false_or]

theorem strstr_isSome_eq_false (needle hay : List Char) (h : ¬ needle <:+: hay) :
    (strstr hay needle).isSome = false := by
  cases hs : (strstr hay needle).isSome with
  | false => rfl
  | true => exact absurd ((strstr_isSome_iff needle hay).mp hs) h

theorem strncmp_eq_zero_iff :
    ∀ (p a : List Char), NUL ∉ p → (strncmp a p p.length = 0 ↔ p <+: a) := by
  intro p
  induction p with
  | nil => intro a _; simp [strncmp]
  | cons c t ih =>
    intro a hp
    have hc : c ≠ NUL := fun e => hp (by simp [e])
    have ht : NUL ∉ t := fun e => hp (by simp [e])
    cases a with
    | nil =>
      simp only [List.length_cons, strncmp, List.headD_nil, List.headD_cons, ne_eq]
      rw [if_pos (fun e => hc e.symm)]
      simp only [List.prefix_nil, reduceCtorEq, iff_false]
      exact char_toNat_sub_ne _ _ (fun e => hc e.symm)
    | cons x u =>
      simp only [List.length_cons, strncmp, List.headD_cons, ne_eq, List.tail_cons,
        List.cons_prefix_cons]
      by_cases hx : x = c
      · subst hx
        simp only [not_true_eq_false, if_false, hc, true_and]
        exact ih u ht
      · have hx2 : ¬ c = x := fun e => hx e.symm
        simp only [hx, hx2, not_false_eq_true, if_true, false_and, iff_false]
        exact char_toNat_sub_ne _ _ hx

/-! ## Lemmas on digits and `%d` -/

theorem wrap32_of_range (x : Int) (h1 : -2147483648 ≤ x) (h2 : x < 2147483648) :
    wrap32 x = x := by
  unfold wrap32
  omega

theorem digit_char_fin : ∀ k : Fin 10,
    isdigit (Char.ofNat ('0'.toNat + k.val)) = true
      ∧ digit_value (Char.ofNat ('0'.toNat + k.val)) = k.val := by
  decide

theorem isdigit_digit_char (d : Nat) : isdigit (digit_char d) = true :=
  (digit_char_fin ⟨d % 10, Nat.mod_lt _ (by decide)⟩).1

theorem digit_value_digit_char (d : Nat) : digit_value (digit_char d) = d % 10 :=
  (digit_char_fin ⟨d % 10, Nat.mod_lt _ (by decide)⟩).2

theorem isdigit_bounds (c : Char) (h : isdigit c = true) : 48 ≤ c.toNat ∧ c.toNat ≤ 57 := by
  have h2 := of_decide_eq_true h
  have e0 : '0'.toNat = 48 := by decide
  have e9 : '9'.toNat = 57 := by decide
  omega

theorem digit_value_le (c : Char) (h : isdigit c = true) : digit_value c ≤ 9 := by
  have := isdigit_bounds c h
  have e0 : '0'.toNat = 48 := by decide
  unfold digit_value
  omega

theorem isdigit_ne (c x : Char) (h : isdigit c = true) (hx : isdigit x = false) : c ≠ x := by
  intro e
  rw [e, hx] at h
  exact Bool.false_ne_true h

theorem isdigit_not_isspace (c : Char) (h : isdigit c = true) : isspace c = false := by
  have hb := isdigit_bounds c h
  cases hs : isspace c with
  | false => rfl
  | true =>
    exfalso
    simp only [isspace, Bool.or_eq_true, beq_iff_eq] at hs
    rcases hs with ((((e | e) | e) | e) | e) | e <;> (rw [e] at hb; revert hb; decide)

theorem dropWhile_isspace_digit (c : Char) (t : List Char) (h : isdigit c = true) :
    (c :: t).dropWhile isspace = c :: t := by
  simp [List.dropWhile_cons, isdigit_not_isspace c h]

theorem takeWhile_isdigit_run (V : List Char) (hV : ∀ c ∈ V, isdigit c = true)
    (t : List Char) (ht : ∀ c ∈ t.head?, isdigit c = false) :
    (V ++ t).takeWhile isdigit = V := by
  induction V with
  | nil =>
    cases t with
    | nil => rfl
    | cons x u => simp [List.takeWhile_cons, ht x (by simp)]
  | cons c u ih =>
    have hc := hV c (by simp)
    simp only [List.cons_append, List.takeWhile_cons, hc, if_true]
    rw [ih (fun x hx => hV x (by simp [hx]))]

theorem decimal_value_two (a b : Char) :
    decimal_value [a, b] = digit_value a * 10 + digit_value b := by
  simp [decimal_value]

theorem scan_decimal_two (a b : Char) (rest : List Char)
    (ha : isdigit a = true) (hb : isdigit b = true) :
    scan_decimal (some 2) (a :: b :: rest)
      = some (((digit_value a * 10 + digit_value b : Nat) : Int), rest) := by
  have hm : a ≠ '-' := isdigit_ne a _ ha (by decide)
  have hp : a ≠ '+' := isdigit_ne a _ ha (by decide)
  have h1 := digit_value_le a ha
  have h2 := digit_value_le b hb
  have hw : wrap32 ((digit_value a * 10 + digit_value b : Nat) : Int)
      = ((digit_value a * 10 + digit_value b : Nat) : Int) :=
    wrap32_of_range _ (by omega) (by omega)
  simp only [scan_decimal, dropWhile_isspace_digit a _ ha, List.take_succ_cons, List.take_zero,
    hm, hp, if_false, List.takeWhile_cons, ha, hb, if_true, List.takeWhile_nil,
    reduceCtorEq, decimal_value_two, hw, List.length_cons, List.length_nil, List.drop_succ_cons,
    List.drop_zero]

theorem scan_decimal_signed (neg : Bool) (a b : Char) (rest : List Char)
    (ha : isdigit a = true) (hb : isdigit b = true) :
    scan_decimal (some 3) ((if neg then '-' else '+') :: a :: b :: rest)
      = some (signed neg (digit_value a * 10 + digit_value b), rest) := by
  have h1 := digit_value_le a ha
  have h2 := digit_value_le b hb
  have hw : wrap32 ((digit_value a * 10 + digit_value b : Nat) : Int)
      = ((digit_value a * 10 + digit_value b : Nat) : Int) :=
    wrap32_of_range _ (by omega) (by omega)
  have hwn : wrap32 (-((digit_value a * 10 + digit_value b : Nat) : Int))
      = -((digit_value a * 10 + digit_value b : Nat) : Int) :=
    wrap32_of_range _ (by omega) (by omega)
  cases neg with
  | true =>
    have hs : ('-' :: a :: b :: rest).dropWhile isspace = '-' :: a :: b :: rest := by
      simp [List.dropWhile_cons, (by decide : isspace '-' = false)]
    simp only [scan_decimal, if_true, hs, List.take_succ_cons, List.take_zero,
      List.takeWhile_cons, ha, hb, List.takeWhile_nil, reduceCtorEq, if_false,
      decimal_value_two, hwn, signed, List.length_cons, List.length_nil, List.drop_succ_cons,
      List.drop_zero]
  | false =>
    have hs : ('+' :: a :: b :: rest).dropWhile isspace = '+' :: a :: b :: rest := by
      simp [List.dropWhile_cons, (by decide : isspace '+' = false)]
    have hne : ('+' : Char) ≠ '-' := by decide
    simp only [scan_decimal, Bool.false_eq_true, if_false, hs, List.take_succ_cons,
      List.take_zero, hne, if_true, List.takeWhile_cons, ha, hb, List.takeWhile_nil,
      reduceCtorEq, decimal_value_two, hw, signed, List.length_cons, List.length_nil,
      List.drop_succ_cons, List.drop_zero]

theorem scan_decimal_run (V : List Char) (x : Char) (rest : List Char) (hne : V ≠ [])
    (hV : ∀ c ∈ V, isdigit c = true) (hx : isdigit x = false) :
    scan_decimal none (V ++ x :: rest)
      = some (wrap32 (decimal_value V : Int), x :: rest) := by
  cases V with
  | nil => exact absurd rfl hne
  | cons c u =>
    have hc := hV c (by simp)
    have hm : c ≠ '-' := isdigit_ne c _ hc (by decide)
    have hp : c ≠ '+' := isdigit_ne c _ hc (by decide)
    have htk : (c :: (u ++ x :: rest)).takeWhile isdigit = c :: u := by
      have := takeWhile_isdigit_run (c :: u) hV (x :: rest) (by simpa using hx)
      simpa using this
    simp only [scan_decimal, List.cons_append, dropWhile_isspace_digit c _ hc, hm, hp, if_false,
      htk, reduceCtorEq, List.length_cons, List.drop_succ_cons]
    simp

/-! ## The clock reply -/

theorem parse_cclk_format : parse_format cclk_format =
    [directive.ordinary '+', directive.ordinary 'C', directive.ordinary 'C',
     directive.ordinary 'L', directive.ordinary 'K', directive.ordinary ':', directive.white,
     directive.ordinary '"', directive.decimal (some 2), directive.ordinary '/',
     directive.decimal (some 2), directive.ordinary '/', directive.decimal (some 2),
     directive.ordinary ',', directive.decimal (some 2), directive.ordinary ':',
     directive.decimal (some 2), directive.ordinary ':', directive.decimal (some 2),
     directive.decimal (some 3), directive.ordinary '"'] := by
  decide

theorem scan_two_digits (n : Fin 100) (rest : List Char) :
    scan_decimal (some 2) (two_digits n ++ rest) = some ((n.val : Int), rest) := by
  have h := scan_decimal_two (digit_char (n.val / 10)) (digit_char n.val) rest
    (isdigit_digit_char _) (isdigit_digit_char _)
  have hv : digit_value (digit_char (n.val / 10)) * 10 + digit_value (digit_char n.val)
      = n.val := by
    rw [digit_value_digit_char, digit_value_digit_char]
    have := n.isLt
    omega
  rw [hv] at h
  exact h

theorem scan_signed_two_digits (neg : Bool) (n : Fin 100) (rest : List Char) :
    scan_decimal (some 3) ((if neg then '-' else '+') :: (two_digits n ++ rest))
      = some (signed neg n.val, rest) := by
  have h := scan_decimal_signed neg (digit_char (n.val / 10)) (digit_char n.val) rest
    (isdigit_digit_char _) (isdigit_digit_char _)
  have hv : digit_value (digit_char (n.val / 10)) * 10 + digit_value (digit_char n.val)
      = n.val := by
    rw [digit_value_digit_char, digit_value_digit_char]
    have := n.isLt
    omega
  rw [hv] at h
  exact h

theorem sscanf_cclk_line (YY MM DD hh mm ss : Fin 100) (neg : Bool) (ZZ : Fin 100) :
    sscanf (cclk_line YY MM DD hh mm ss neg ZZ) cclk_format
      = [(YY.val : Int), MM.val, DD.val, hh.val, mm.val, ss.val, signed neg ZZ.val] := by
  have hsp : ∀ t : List Char, (' ' :: '"' :: t).dropWhile isspace = '"' :: t := by
    intro t
    simp [List.dropWhile_cons, (by decide : isspace ' ' = true),
      (by decide : isspace '"' = false)]
  unfold sscanf cclk_line
  rw [parse_cclk_format]
  simp only [List.cons_append, List.nil_append, sscanf_run, if_true, hsp, scan_two_digits,
    scan_signed_two_digits]

theorem not_infix_of_not_mem (c : Char) (n s : List Char) (h : c ∉ s) : ¬ (c :: n) <:+: s :=
  fun hi => h (hi.subset (by simp))

theorem cclk_line_chars (YY MM DD hh mm ss : Fin 100) (neg : Bool) (ZZ : Fin 100) :
    ∀ x ∈ cclk_line YY MM DD hh mm ss neg ZZ,
      isdigit x = true ∨ x ∈ ['+', 'C', 'L', 'K', ':', ' ', '"', '/', ',', '-'] := by
  unfold cclk_line two_digits
  cases neg <;> simp [isdigit_digit_char]

theorem cclk_line_not_mem (YY MM DD hh mm ss : Fin 100) (neg : Bool) (ZZ : Fin 100) (c : Char)
    (h1 : isdigit c = false) (h2 : c ∉ ['+', 'C', 'L', 'K', ':', ' ', '"', '/', ',', '-']) :
    c ∉ cclk_line YY MM DD hh mm ss neg ZZ := by
  intro hm
  rcases cclk_line_chars YY MM DD hh mm ss neg ZZ c hm with h | h
  · rw [h1] at h
    exact Bool.false_ne_true h
  · exact h2 h

theorem cclk_line_starts (YY MM DD hh mm ss : Fin 100) (neg : Bool) (ZZ : Fin 100) :
    "+CCLK".toList <+: cclk_line YY MM DD hh mm ss neg ZZ := by
  have e : "+CCLK".toList = ['+', 'C', 'C', 'L', 'K'] := by decide
  rw [e]
  unfold cclk_line
  exact ⟨_, rfl⟩

/-- What `sim7600_handle_cclk` does on a well-formed clock reply. -/
theorem handle_cclk_line (w : World) (YY MM DD hh mm ss : Fin 100) (neg : Bool) (ZZ : Fin 100)
    (rest : List Char) :
    sim7600_handle_cclk w (cclk_line YY MM DD hh mm ss neg ZZ ++ NUL :: rest)
      = (ESP_OK, { w with
          _sim_rtc := { w._sim_rtc with
            tm_year := (YY.val : Int) + 100, tm_mon := MM.val, tm_mday := DD.val,
            tm_hour := hh.val, tm_min := mm.val, tm_sec := ss.val },
          _sim_rtc_timezone := Int.tdiv (signed neg ZZ.val) 4 }) := by
  have hnul : NUL ∉ cclk_line YY MM DD hh mm ss neg ZZ :=
    cclk_line_not_mem _ _ _ _ _ _ _ _ _ (by decide) (by decide)
  have hok : (strstr (cclk_line YY MM DD hh mm ss neg ZZ) MODEM_RESULT_CODE_SUCCESS).isSome
      = false := by
    apply strstr_isSome_eq_false
    have e : MODEM_RESULT_CODE_SUCCESS = 'O' :: ['K'] := by decide
    rw [e]
    exact not_infix_of_not_mem _ _ _
      (cclk_line_not_mem _ _ _ _ _ _ _ _ _ (by decide) (by decide))
  have herr : (strstr (cclk_line YY MM DD hh mm ss neg ZZ) MODEM_RESULT_CODE_ERROR).isSome
      = false := by
    apply strstr_isSome_eq_false
    have e : MODEM_RESULT_CODE_ERROR = 'E' :: ['R', 'R', 'O', 'R'] := by decide
    rw [e]
    exact not_infix_of_not_mem _ _ _
      (cclk_line_not_mem _ _ _ _ _ _ _ _ _ (by decide) (by decide))
  have hpre : strncmp (cclk_line YY MM DD hh mm ss neg ZZ) "+CCLK".toList
      (strlen "+CCLK".toList) = 0 :=
    (strncmp_eq_zero_iff _ _ (by decide)).mpr (cclk_line_starts _ _ _ _ _ _ _ _)
  have hy : wrap32 (wrap32 ((YY.val : Int) + 2000) - 1900) = (YY.val : Int) + 100 := by
    have := YY.isLt
    rw [wrap32_of_range ((YY.val : Int) + 2000) (by omega) (by omega),
      wrap32_of_range _ (by omega) (by omega)]
    omega
  unfold sim7600_handle_cclk
  simp only [cstr_append_nul _ _ hnul, handle_result_code, hok, herr, Bool.false_eq_true,
    if_false, hpre, if_true, sscanf_cclk_line, List.getD_cons_zero, List.getD_cons_succ, hy]

/-! ## The battery reply -/

theorem parse_cbc_format : parse_format cbc_format =
    [directive.ordinary '+', directive.ordinary 'C', directive.ordinary 'B',
     directive.ordinary 'C', directive.ordinary ':', directive.white,
     directive.decimal none, directive.ordinary '.', directive.decimal none,
     directive.ordinary 'V'] := by
  decide

theorem sscanf_cbc_line (V F : List Char) (hV0 : V ≠ []) (hF0 : F ≠ [])
    (hV : ∀ c ∈ V, isdigit c = true) (hF : ∀ c ∈ F, isdigit c = true) :
    sscanf (cbc_line V F) cbc_format
      = [wrap32 (decimal_value V : Int), wrap32 (decimal_value F : Int)] := by
  have hsp : ∀ t : List Char, (' ' :: (V ++ t)).dropWhile isspace = V ++ t := by
    intro t
    cases V with
    | nil => exact absurd rfl hV0
    | cons c u =>
      have hc := hV c (by simp)
      simp [List.dropWhile_cons, (by decide : isspace ' ' = true), isdigit_not_isspace c hc]
  unfold sscanf cbc_line
  rw [parse_cbc_format]
  simp only [List.cons_append, List.nil_append, sscanf_run, if_true, hsp,
    scan_decimal_run V '.' _ hV0 hV (by decide),
    scan_decimal_run F 'V' _ hF0 hF (by decide)]

theorem cbc_line_chars (V F : List Char)
    (hV : ∀ c ∈ V, isdigit c = true) (hF : ∀ c ∈ F, isdigit c = true) :
    ∀ x ∈ cbc_line V F, isdigit x = true ∨ x ∈ ['+', 'C', 'B', ':', ' ', '.', 'V'] := by
  intro x hx
  unfold cbc_line at hx
  simp only [List.cons_append, List.nil_append, List.mem_cons, List.mem_append,
    List.not_mem_nil, or_false] at hx
  rcases hx with h | h | h | h | h | h | h | h | h | h
  all_goals first
    | exact Or.inl (hV x h)
    | exact Or.inl (hF x h)
    | (right; rw [h]; decide)

theorem cbc_line_not_mem (V F : List Char)
    (hV : ∀ c ∈ V, isdigit c = true) (hF : ∀ c ∈ F, isdigit c = true) (c : Char)
    (h1 : isdigit c = false) (h2 : c ∉ ['+', 'C', 'B', ':', ' ', '.', 'V']) :
    c ∉ cbc_line V F := by
  intro hm
  rcases cbc_line_chars V F hV hF c hm with h | h
  · rw [h1] at h
    exact Bool.false_ne_true h
  · exact h2 h

theorem cbc_line_starts (V F : List Char) : "+CBC".toList <+: cbc_line V F := by
  have e : "+CBC".toList = ['+', 'C', 'B', 'C'] := by decide
  rw [e]
  unfold cbc_line
  exact ⟨_, rfl⟩

theorem trimLeading_cbc_line (V F rest : List Char)
    (hV : ∀ c ∈ V, isdigit c = true) (hF : ∀ c ∈ F, isdigit c = true) :
    trimLeading (cbc_line V F ++ NUL :: rest) = some (cbc_line V F ++ NUL :: rest) := by
  have hnul : NUL ∉ cbc_line V F := cbc_line_not_mem V F hV hF _ (by decide) (by decide)
  obtain ⟨tail, h1, _, h3⟩ := trimLeading_result (cbc_line V F) rest hnul
  have ht : (cbc_line V F).takeWhile is_trim_char = [] := by
    unfold cbc_line
    simp [List.takeWhile_cons, (by decide : is_trim_char '+' = false)]
  have hd : (cbc_line V F).dropWhile is_trim_char = cbc_line V F := by
    have := List.takeWhile_append_dropWhile is_trim_char (cbc_line V F)
    rw [ht] at this
    simpa using this
  rw [h1, hd, h3 ht]

theorem getD_pair_zero (a b d : Int) : [a, b].getD 0 d = a := rfl

theorem getD_pair_one (a b d : Int) : [a, b].getD 1 d = b := rfl

/-- What `sim7600_handle_cbc` does on a well-formed battery reply while
`priv_resource` points to the live `resource` array. -/
theorem handle_cbc_line (w : World) (cbc : resource_frame) (V F rest : List Char)
    (hV0 : V ≠ []) (hF0 : F ≠ [])
    (hV : ∀ c ∈ V, isdigit c = true) (hF : ∀ c ∈ F, isdigit c = true)
    (hp : w.bg96_dce.priv_resource = some cbc.activation) (hf : w.frame = some cbc) :
    sim7600_handle_cbc w (cbc_line V F ++ NUL :: rest)
      = some (ESP_OK,
          ((w.store cbc.bcs (-1)).store cbc.bcl (-1)).store cbc.voltage
            (wrap32 (wrap32 (wrap32 (decimal_value V : Int) * 1000)
              + wrap32 (decimal_value F : Int))),
          cbc_line V F ++ NUL :: rest) := by
  have hnul : NUL ∉ cbc_line V F := cbc_line_not_mem V F hV hF _ (by decide) (by decide)
  have hok : (strstr (cbc_line V F) MODEM_RESULT_CODE_SUCCESS).isSome = false := by
    apply strstr_isSome_eq_false
    have e : MODEM_RESULT_CODE_SUCCESS = 'O' :: ['K'] := by decide
    rw [e]
    exact not_infix_of_not_mem _ _ _ (cbc_line_not_mem V F hV hF _ (by decide) (by decide))
  have herr : (strstr (cbc_line V F) MODEM_RESULT_CODE_ERROR).isSome = false := by
    apply strstr_isSome_eq_false
    have e : MODEM_RESULT_CODE_ERROR = 'E' :: ['R', 'R', 'O', 'R'] := by decide
    rw [e]
    exact not_infix_of_not_mem _ _ _ (cbc_line_not_mem V F hV hF _ (by decide) (by decide))
  have hpre : strncmp (cbc_line V F) "+CBC".toList (strlen "+CBC".toList) = 0 :=
    (strncmp_eq_zero_iff _ _ (by decide)).mpr (cbc_line_starts V F)
  have hrc : handle_result_code w (cbc_line V F) = (ESP_FAIL, w) := by
    simp only [handle_result_code, hok, herr, Bool.false_eq_true, if_false]
  unfold sim7600_handle_cbc
  rw [trimLeading_cbc_line V F rest hV hF]
  simp only [cstr_append_nul _ _ hnul, hrc, hpre, if_true]
  rw [hp, hf, sscanf_cbc_line V F hV0 hF0 hV hF]
  simp only []
  rw [if_pos trivial, getD_pair_zero, getD_pair_one]

/-! ## The generic completion rule -/

theorem handle_result_code_ok (w : World) (s : List Char)
    (h : MODEM_RESULT_CODE_SUCCESS <:+: s) :
    handle_result_code w s = esp_modem_process_command_done w MODEM_STATE_SUCCESS := by
  unfold handle_result_code
  rw [if_pos ((strstr_isSome_iff _ _).mpr h)]

theorem handle_result_code_error (w : World) (s : List Char)
    (h1 : ¬ MODEM_RESULT_CODE_SUCCESS <:+: s) (h2 : MODEM_RESULT_CODE_ERROR <:+: s) :
    handle_result_code w s = esp_modem_process_command_done w MODEM_STATE_FAIL := by
  unfold handle_result_code
  rw [if_neg (by rw [strstr_isSome_eq_false _ _ h1]; exact Bool.false_ne_true),
    if_pos ((strstr_isSome_iff _ _).mpr h2)]

theorem handle_result_code_neither (w : World) (s : List Char)
    (h1 : ¬ MODEM_RESULT_CODE_SUCCESS <:+: s) (h2 : ¬ MODEM_RESULT_CODE_ERROR <:+: s) :
    handle_result_code w s = (ESP_FAIL, w) := by
  unfold handle_result_code
  rw [if_neg (by rw [strstr_isSome_eq_false _ _ h1]; exact Bool.false_ne_true),
    if_neg (by rw [strstr_isSome_eq_false _ _ h2]; exact Bool.false_ne_true)]

theorem infix_dropWhile_trim (c : Char) (n : List Char) (hc : is_trim_char c = false) :
    ∀ s : List Char, (c :: n) <:+: s → (c :: n) <:+: s.dropWhile is_trim_char := by
  intro s
  induction s with
  | nil => intro h; exact h
  | cons x t ih =>
    intro h
    by_cases hx : is_trim_char x = true
    · rw [List.dropWhile_cons, if_pos hx]
      rcases List.infix_cons_iff.mp h with hp | hi
      · have e : c = x := (List.cons_prefix_cons.mp hp).1
        rw [e, hx] at hc
        exact absurd hc (by decide)
      · exact ih hi
    · rw [List.dropWhile_cons, if_neg hx]
      exact h

theorem not_infix_dropWhile_trim (n s : List Char) (h : ¬ n <:+: s) :
    ¬ n <:+: s.dropWhile is_trim_char :=
  fun hi => h (hi.trans (List.dropWhile_suffix is_trim_char).isInfix)

theorem success_code_eq : MODEM_RESULT_CODE_SUCCESS = 'O' :: ['K'] := by decide

theorem error_code_eq : MODEM_RESULT_CODE_ERROR = 'E' :: ['R', 'R', 'O', 'R'] := by decide

/-- What `sim7600_handle_cbc` does, in terms of the trimmed string, on a
NUL-terminated buffer: the completion rule on the trimmed string, then the
prefix rule. -/
theorem handle_cbc_unfold (w : World) (s rest : List Char) (h : NUL ∉ s) :
    ∃ tail, sim7600_handle_cbc w (s ++ NUL :: rest)
      = (if strncmp (s.dropWhile is_trim_char) "+CBC".toList (strlen "+CBC".toList) = 0 then
          match (handle_result_code w (s.dropWhile is_trim_char)).2.bg96_dce.priv_resource,
            (handle_result_code w (s.dropWhile is_trim_char)).2.frame with
          | some p, some cbc =>
            if p = cbc.activation then
              some (ESP_OK,
                (((handle_result_code w (s.dropWhile is_trim_char)).2.store cbc.bcs (-1)).store
                  cbc.bcl (-1)).store cbc.voltage
                  (wrap32 (wrap32 ((sscanf (s.dropWhile is_trim_char) cbc_format).getD 0 0 * 1000)
                    + (sscanf (s.dropWhile is_trim_char) cbc_format).getD 1 0)),
                s.dropWhile is_trim_char ++ NUL :: tail)
            else none
          | _, _ => none
        else some ((handle_result_code w (s.dropWhile is_trim_char)).1,
          (handle_result_code w (s.dropWhile is_trim_char)).2,
          s.dropWhile is_trim_char ++ NUL :: tail)) := by
  obtain ⟨tail, h1, _, _⟩ := trimLeading_result s rest h
  have hbody : NUL ∉ s.dropWhile is_trim_char :=
    fun hm => h ((List.dropWhile_suffix is_trim_char).subset hm)
  refine ⟨tail, ?_⟩
  unfold sim7600_handle_cbc
  rw [h1]
  simp only [cstr_append_nul _ _ hbody]

theorem process_command_done_fields (w : World) (st : modem_state_t) :
    (esp_modem_process_command_done w st).2.bg96_dce.parent.state = st
      ∧ (esp_modem_process_command_done w st).2.cmd_done = w.cmd_done + 1
      ∧ (esp_modem_process_command_done w st).2.bg96_dce.priv_resource
          = w.bg96_dce.priv_resource
      ∧ (esp_modem_process_command_done w st).2.frame = w.frame
      ∧ (esp_modem_process_command_done w st).2._sim_rtc = w._sim_rtc
      ∧ (esp_modem_process_command_done w st).2._sim_rtc_timezone = w._sim_rtc_timezone
      ∧ (esp_modem_process_command_done w st).2.cells = w.cells :=
  ⟨rfl, rfl, rfl, rfl, rfl, rfl, rfl⟩

theorem handle_result_code_fields (w : World) (s : List Char) :
    (handle_result_code w s).2.bg96_dce.priv_resource = w.bg96_dce.priv_resource
      ∧ (handle_result_code w s).2.frame = w.frame
      ∧ (handle_result_code w s).2._sim_rtc = w._sim_rtc
      ∧ (handle_result_code w s).2._sim_rtc_timezone = w._sim_rtc_timezone
      ∧ (handle_result_code w s).2.cells = w.cells := by
  unfold handle_result_code
  split_ifs <;> exact ⟨rfl, rfl, rfl, rfl, rfl⟩

theorem dropWhile_trim_of_head (s : List Char) (h : ∀ c ∈ s.head?, is_trim_char c = false) :
    s.dropWhile is_trim_char = s := by
  cases s with
  | nil => rfl
  | cons x t =>
    have hx := h x (by simp)
    simp [List.dropWhile_cons, hx]

theorem dropWhile_trim_of_starts (p s : List Char) (hp : ∀ c ∈ p.head?, is_trim_char c = false)
    (hne : p ≠ []) (h : p <+: s) : s.dropWhile is_trim_char = s := by
  apply dropWhile_trim_of_head
  obtain ⟨t, rfl⟩ := h
  cases p with
  | nil => exact absurd rfl hne
  | cons x u => simpa using hp

theorem dropWhile_trim_append (ws s : List Char) (hws : ∀ c ∈ ws, is_trim_char c = true)
    (hs : ∀ c ∈ s.head?, is_trim_char c = false) :
    (ws ++ s).dropWhile is_trim_char = s := by
  induction ws with
  | nil => exact dropWhile_trim_of_head s hs
  | cons x t ih =>
    have hx := hws x (by simp)
    rw [List.cons_append, List.dropWhile_cons, if_pos hx]
    exact ih (fun c hc => hws c (by simp [hc]))

/-- What `sim7600_handle_cbc` does on a NUL-terminated buffer whose trimmed
string starts with `+CBC`, while `priv_resource` points to the live
`resource` array. -/
theorem handle_cbc_starts (w : World) (cbc : resource_frame) (s rest : List Char)
    (hnul : NUL ∉ s)
    (hpre : "+CBC".toList <+: s.dropWhile is_trim_char)
    (hp : w.bg96_dce.priv_resource = some cbc.activation) (hf : w.frame = some cbc) :
    ∃ tail, sim7600_handle_cbc w (s ++ NUL :: rest)
      = some (ESP_OK,
          (((handle_result_code w (s.dropWhile is_trim_char)).2.store cbc.bcs (-1)).store
            cbc.bcl (-1)).store cbc.voltage
            (wrap32 (wrap32 ((sscanf (s.dropWhile is_trim_char) cbc_format).getD 0 0 * 1000)
              + (sscanf (s.dropWhile is_trim_char) cbc_format).getD 1 0)),
          s.dropWhile is_trim_char ++ NUL :: tail) := by
  obtain ⟨tail, hu⟩ := handle_cbc_unfold w s rest hnul
  obtain ⟨f1, f2, _⟩ := handle_result_code_fields w (s.dropWhile is_trim_char)
  have h0 : strncmp (s.dropWhile is_trim_char) "+CBC".toList (strlen "+CBC".toList) = 0 :=
    (strncmp_eq_zero_iff _ _ (by decide)).mpr hpre
  refine ⟨tail, ?_⟩
  rw [hu, if_pos h0, f1, f2, hp, hf]
  simp only []
  rw [if_pos trivial]

theorem store_cells_voltage (w : World) (a b c : Nat) (x y z : Int) :
    (((w.store a x).store b y).store c z).cells c = z := by
  simp [World.store]

theorem store_cells_other (w : World) (a b c : Nat) (x z : Int) (h : a ≠ c) :
    (((w.store a x).store b x).store c z).cells a = x := by
  by_cases hab : a = b
  · subst hab
    simp [World.store, h]
  · simp [World.store, h, hab]

theorem store_cells_second (w : World) (a b c : Nat) (x y z : Int) (h : b ≠ c) :
    (((w.store a x).store b y).store c z).cells b = y := by
  simp [World.store, h]

theorem store_keeps_dce (w : World) (a b c : Nat) (x y z : Int) :
    (((w.store a x).store b y).store c z).bg96_dce = w.bg96_dce
      ∧ (((w.store a x).store b y).store c z).cmd_done = w.cmd_done :=
  ⟨rfl, rfl⟩

theorem handle_result_code_cbc_line (w : World) (V F : List Char)
    (hV : ∀ c ∈ V, isdigit c = true) (hF : ∀ c ∈ F, isdigit c = true) :
    handle_result_code w (cbc_line V F) = (ESP_FAIL, w) := by
  apply handle_result_code_neither
  · rw [success_code_eq]
    exact not_infix_of_not_mem _ _ _ (cbc_line_not_mem V F hV hF _ (by decide) (by decide))
  · rw [error_code_eq]
    exact not_infix_of_not_mem _ _ _ (cbc_line_not_mem V F hV hF _ (by decide) (by decide))

theorem trim_char_not_mem (ws : List Char) (hws : ∀ c ∈ ws, is_trim_char c = true) (c : Char)
    (hc : is_trim_char c = false) : c ∉ ws := by
  intro hm
  rw [hws c hm] at hc
  exact absurd hc (by decide)

theorem not_starts_of_trim_head (p ws t : List Char) (hne : ws ≠ [])
    (hws : ∀ c ∈ ws, is_trim_char c = true) (hp : ∀ c ∈ p.head?, is_trim_char c = false)
    (hpne : p ≠ []) : ¬ p <+: ws ++ t := by
  intro h
  cases ws with
  | nil => exact absurd rfl hne
  | cons x u =>
    cases p with
    | nil => exact absurd rfl hpne
    | cons y v =>
      have e : y = x := (List.cons_prefix_cons.mp h).1
      have h1 := hp y (by simp)
      have h2 := hws x (by simp)
      rw [e, h2] at h1
      exact absurd h1 (by decide)

/-- The buffer `sim7600_handle_cbc` leaves: whenever it returns, the line
buffer is the one `trimLeading` leaves. -/
theorem handle_cbc_buffer (w : World) (s rest : List Char) (h : NUL ∉ s)
    (r : esp_err_t × World × List Char)
    (hr : sim7600_handle_cbc w (s ++ NUL :: rest) = some r) :
    trimLeading (s ++ NUL :: rest) = some r.2.2 := by
  have he := trimLeading_eq s rest h
  unfold sim7600_handle_cbc at hr
  rw [he] at hr ⊢
  simp only [] at hr
  split at hr
  · split at hr
    · split at hr
      · cases hr
        rfl
      · exact absurd hr (by simp)
    · exact absurd hr (by simp)
  · cases hr
    rfl

theorem getD_single_zero (a d : Int) : [a].getD 0 d = a := rfl

theorem getD_single_one (a d : Int) : [a].getD 1 d = d := rfl

theorem wrap32_wrap32_add_zero (x : Int) : wrap32 (wrap32 x + 0) = wrap32 x := by
  unfold wrap32
  omega

/-- What `sim7600_handle_cclk` does on a NUL-terminated line that starts with
`+CCLK`: after the completion rule, each field takes the value the scan
assigned or keeps its old one, and then the year is rebased and the offset
divided by 4. -/
theorem handle_cclk_starts (w : World) (s rest : List Char) (hnul : NUL ∉ s)
    (hpre : "+CCLK".toList <+: s) :
    sim7600_handle_cclk w (s ++ NUL :: rest)
      = (ESP_OK,
          { (handle_result_code w s).2 with
            _sim_rtc :=
              { w._sim_rtc with
                tm_year := wrap32 (wrap32 ((sscanf s cclk_format).getD 0 w._sim_rtc.tm_year
                  + 2000) - 1900)
                tm_mon := (sscanf s cclk_format).getD 1 w._sim_rtc.tm_mon
                tm_mday := (sscanf s cclk_format).getD 2 w._sim_rtc.tm_mday
                tm_hour := (sscanf s cclk_format).getD 3 w._sim_rtc.tm_hour
                tm_min := (sscanf s cclk_format).getD 4 w._sim_rtc.tm_min
                tm_sec := (sscanf s cclk_format).getD 5 w._sim_rtc.tm_sec },
            _sim_rtc_timezone :=
              Int.tdiv ((sscanf s cclk_format).getD 6 w._sim_rtc_timezone) 4 }) := by
  have h0 : strncmp s "+CCLK".toList (strlen "+CCLK".toList) = 0 :=
    (strncmp_eq_zero_iff _ _ (by decide)).mpr hpre
  obtain ⟨_, _, f3, f4, _⟩ := handle_result_code_fields w s
  unfold sim7600_handle_cclk
  rw [cstr_append_nul _ _ hnul, if_pos h0]
  simp only [f3, f4]

theorem getD_of_getElem? (l : List Int) (n : Nat) (d v : Int) (h : l[n]? = some v) :
    l.getD n d = v := by
  rw [List.getD_eq_getElem?_getD, h]
  rfl

/-! ## Claims -/

/-- C1: for every clock reply `+CCLK: "YY/MM/DD,hh:mm:ss±ZZ"` with two-digit
fields, whatever the state before, after `sim7600_handle_cclk` the clock
reading has full year 2000+YY (`tm_year + 1900`), month MM, day DD, hour hh,
minute mm, second ss, and the offset is the signed ZZ divided by 4; the reply
`+CCLK: "24/03/05,08:15:30+28"` gives 2024, 3, 5, 8, 15, 30 and offset 7. -/
theorem cclk_reading_of_well_formed_line (w : World) (YY MM DD hh mm ss : Fin 100)
    (neg : Bool) (ZZ : Fin 100) (rest : List Char) :
    ((sim7600_handle_cclk w (cclk_line YY MM DD hh mm ss neg ZZ ++ NUL :: rest)).2._sim_rtc.tm_year
        + 1900 = 2000 + (YY.val : Int)
      ∧ (sim7600_handle_cclk w (cclk_line YY MM DD hh mm ss neg ZZ ++ NUL :: rest)).2._sim_rtc.tm_mon
        = MM.val
      ∧ (sim7600_handle_cclk w (cclk_line YY MM DD hh mm ss neg ZZ ++ NUL :: rest)).2._sim_rtc.tm_mday
        = DD.val
      ∧ (sim7600_handle_cclk w (cclk_line YY MM DD hh mm ss neg ZZ ++ NUL :: rest)).2._sim_rtc.tm_hour
        = hh.val
      ∧ (sim7600_handle_cclk w (cclk_line YY MM DD hh mm ss neg ZZ ++ NUL :: rest)).2._sim_rtc.tm_min
        = mm.val
      ∧ (sim7600_handle_cclk w (cclk_line YY MM DD hh mm ss neg ZZ ++ NUL :: rest)).2._sim_rtc.tm_sec
        = ss.val
      ∧ (sim7600_handle_cclk w (cclk_line YY MM DD hh mm ss neg ZZ ++ NUL :: rest)).2._sim_rtc_timezone
        = Int.tdiv (signed neg ZZ.val) 4)
    ∧ (cclk_line 24 3 5 8 15 30 false 28 = "+CCLK: \"24/03/05,08:15:30+28\"".toList
      ∧ (sim7600_handle_cclk w ("+CCLK: \"24/03/05,08:15:30+28\"".toList ++ NUL :: rest)).2._sim_rtc
        = { w._sim_rtc with
            tm_year := 2024 - 1900, tm_mon := 3, tm_mday := 5, tm_hour := 8, tm_min := 15,
            tm_sec := 30 }
      ∧ (sim7600_handle_cclk w ("+CCLK: \"24/03/05,08:15:30+28\"".toList
          ++ NUL :: rest)).2._sim_rtc_timezone = 7) := by
  have hline : cclk_line 24 3 5 8 15 30 false 28 = "+CCLK: \"24/03/05,08:15:30+28\"".toList := by
    decide
  refine ⟨?_, hline, ?_, ?_⟩
  · rw [handle_cclk_line]
    refine ⟨?_, rfl, rfl, rfl, rfl, rfl, rfl⟩
    show (YY.val : Int) + 100 + 1900 = 2000 + (YY.val : Int)
    omega
  · rw [← hline, handle_cclk_line]
    rfl
  · rw [← hline, handle_cclk_line]
    show Int.tdiv (signed false (28 : Fin 100).val) 4 = 7
    decide

/-- C9: for every signed quarter-hour field ±ZZ of a well-formed clock reply,
the offset `sim7600_handle_cclk` stores is the field divided by 4 with the
quotient truncated toward zero: its magnitude is ZZ / 4 rounded down and its
sign is the sign of the field. `-04` gives -1, `-05` gives -1, `-03` gives 0
and `+29` gives 7. -/
theorem cclk_offset_truncates_toward_zero (w : World) (YY MM DD hh mm ss : Fin 100)
    (neg : Bool) (ZZ : Fin 100) (rest : List Char) :
    ((sim7600_handle_cclk w (cclk_line YY MM DD hh mm ss neg ZZ ++ NUL :: rest)).2._sim_rtc_timezone
        = Int.tdiv (signed neg ZZ.val) 4
      ∧ ((sim7600_handle_cclk w
            (cclk_line YY MM DD hh mm ss neg ZZ ++ NUL :: rest)).2._sim_rtc_timezone).natAbs
          = ZZ.val / 4
      ∧ (neg = true → (sim7600_handle_cclk w
            (cclk_line YY MM DD hh mm ss neg ZZ ++ NUL :: rest)).2._sim_rtc_timezone ≤ 0)
      ∧ (neg = false → 0 ≤ (sim7600_handle_cclk w
            (cclk_line YY MM DD hh mm ss neg ZZ ++ NUL :: rest)).2._sim_rtc_timezone))
    ∧ ((sim7600_handle_cclk w ("+CCLK: \"24/03/05,08:15:30-04\"".toList
          ++ NUL :: rest)).2._sim_rtc_timezone = -1
      ∧ (sim7600_handle_cclk w ("+CCLK: \"24/03/05,08:15:30-05\"".toList
          ++ NUL :: rest)).2._sim_rtc_timezone = -1
      ∧ (sim7600_handle_cclk w ("+CCLK: \"24/03/05,08:15:30-03\"".toList
          ++ NUL :: rest)).2._sim_rtc_timezone = 0
      ∧ (sim7600_handle_cclk w ("+CCLK: \"24/03/05,08:15:30+29\"".toList
          ++ NUL :: rest)).2._sim_rtc_timezone = 7) := by
  have h4 : cclk_line 24 3 5 8 15 30 true 4 = "+CCLK: \"24/03/05,08:15:30-04\"".toList := by
    decide
  have h5 : cclk_line 24 3 5 8 15 30 true 5 = "+CCLK: \"24/03/05,08:15:30-05\"".toList := by
    decide
  have h3 : cclk_line 24 3 5 8 15 30 true 3 = "+CCLK: \"24/03/05,08:15:30-03\"".toList := by
    decide
  have h29 : cclk_line 24 3 5 8 15 30 false 29 = "+CCLK: \"24/03/05,08:15:30+29\"".toList := by
    decide
  refine ⟨?_, ?_, ?_, ?_, ?_⟩
  · rw [handle_cclk_line]
    have hz := ZZ.isLt
    cases neg with
    | true =>
      refine ⟨rfl, ?_, fun _ => ?_, fun h => absurd h (by decide)⟩
      · show (Int.tdiv (signed true ZZ.val) 4).natAbs = ZZ.val / 4
        simp only [signed, if_true]
        rw [Int.neg_tdiv, Int.natAbs_neg]
        have : Int.tdiv (ZZ.val : Int) 4 = ((ZZ.val / 4 : Nat) : Int) := by
          rw [Int.tdiv_eq_ediv (by omega) (by omega)]
          rfl
        rw [this, Int.natAbs_ofNat]
      · show Int.tdiv (signed true ZZ.val) 4 ≤ 0
        simp only [signed, if_true]
        rw [Int.neg_tdiv, Int.tdiv_eq_ediv (by omega) (by omega)]
        omega
    | false =>
      refine ⟨rfl, ?_, fun h => absurd h (by decide), fun _ => ?_⟩
      · show (Int.tdiv (signed false ZZ.val) 4).natAbs = ZZ.val / 4
        simp only [signed, Bool.false_eq_true, if_false]
        have : Int.tdiv (ZZ.val : Int) 4 = ((ZZ.val / 4 : Nat) : Int) := by
          rw [Int.tdiv_eq_ediv (by omega) (by omega)]
          rfl
        rw [this, Int.natAbs_ofNat]
      · show 0 ≤ Int.tdiv (signed false ZZ.val) 4
        simp only [signed, Bool.false_eq_true, if_false]
        rw [Int.tdiv_eq_ediv (by omega) (by omega)]
        omega
  · rw [← h4, handle_cclk_line]
    show Int.tdiv (signed true (4 : Fin 100).val) 4 = -1
    decide
  · rw [← h5, handle_cclk_line]
    show Int.tdiv (signed true (5 : Fin 100).val) 4 = -1
    decide
  · rw [← h3, handle_cclk_line]
    show Int.tdiv (signed true (3 : Fin 100).val) 4 = 0
    decide
  · rw [← h29, handle_cclk_line]
    show Int.tdiv (signed false (29 : Fin 100).val) 4 = 7
    decide

/-- C2: for every battery reply `+CBC: V.FV` without leading white space, V
and F non-empty runs of decimal digits whose values keep V*1000+F in the
range of `int32_t`, handled while `priv_resource` points to the live
`resource` array whose voltage address differs from the other two,
`sim7600_handle_cbc` returns `ESP_OK` and stores status -1, level -1 and
voltage V*1000 + F, with F read as a plain integer. -/
theorem cbc_reading_of_well_formed_line (w : World) (cbc : resource_frame)
    (V F rest : List Char) (hV0 : V ≠ []) (hF0 : F ≠ [])
    (hV : ∀ c ∈ V, isdigit c = true) (hF : ∀ c ∈ F, isdigit c = true)
    (hrange : decimal_value V * 1000 + decimal_value F < 2147483648)
    (hp : w.bg96_dce.priv_resource = some cbc.activation) (hf : w.frame = some cbc)
    (h1 : cbc.bcs ≠ cbc.voltage) (h2 : cbc.bcl ≠ cbc.voltage) :
    ∃ w1, sim7600_handle_cbc w (cbc_line V F ++ NUL :: rest)
        = some (ESP_OK, w1, cbc_line V F ++ NUL :: rest)
      ∧ w1.cells cbc.bcs = -1 ∧ w1.cells cbc.bcl = -1
      ∧ w1.cells cbc.voltage = (decimal_value V : Int) * 1000 + (decimal_value F : Int) := by
  refine ⟨_, handle_cbc_line w cbc V F rest hV0 hF0 hV hF hp hf, ?_, ?_, ?_⟩
  · simp [World.store, h1]
  · simp [World.store, h2]
  · have e1 : wrap32 (decimal_value V : Int) = decimal_value V :=
      wrap32_of_range _ (by omega) (by omega)
    have e2 : wrap32 (decimal_value F : Int) = decimal_value F :=
      wrap32_of_range _ (by omega) (by omega)
    have e3 : wrap32 ((decimal_value V : Int) * 1000) = (decimal_value V : Int) * 1000 :=
      wrap32_of_range _ (by omega) (by omega)
    have e4 : wrap32 ((decimal_value V : Int) * 1000 + (decimal_value F : Int))
        = (decimal_value V : Int) * 1000 + (decimal_value F : Int) :=
      wrap32_of_range _ (by omega) (by omega)
    simp [World.store, e1, e2, e3, e4]

/-- C2, at the reply `+CBC: 4.05V`: status -1, level -1, voltage 4005. -/
theorem cbc_reading_of_well_formed_line_witness :
    cbc_line ['4'] ['0', '5'] = "+CBC: 4.05V".toList
      ∧ ∃ w1, sim7600_handle_cbc world_cbc ("+CBC: 4.05V".toList ++ NUL :: [])
          = some (ESP_OK, w1, "+CBC: 4.05V".toList ++ NUL :: [])
        ∧ w1.cells 0 = -1 ∧ w1.cells 1 = -1 ∧ w1.cells 2 = 4005 :=
  ⟨by decide,
    cbc_reading_of_well_formed_line world_cbc ⟨0, 0, 1, 2⟩ ['4'] ['0', '5'] []
      (by decide) (by decide) (by decide) (by decide) (by decide) rfl rfl
      (by decide) (by decide)⟩

/-- C3: for every buffer that holds the string `s` followed by a NUL,
`trimLeading` returns, and the string in the buffer afterwards is `s`
without its maximal leading run of space, tab and newline characters: `s` is
that run followed by the new string, which does not begin with one of the
three characters, so every later byte, embedded white space and a leading
carriage return included, is kept in order. A string made only of the three
characters becomes empty, and a buffer whose string does not begin with one
of them is left as it was. -/
theorem trimLeading_removes_leading_run (s rest : List Char) (h : NUL ∉ s) :
    ∃ buf, trimLeading (s ++ NUL :: rest) = some buf
      ∧ cstr buf = s.dropWhile is_trim_char
      ∧ s = s.takeWhile is_trim_char ++ cstr buf
      ∧ (∀ c ∈ (cstr buf).head?, is_trim_char c = false)
      ∧ ((∀ c ∈ s, is_trim_char c = true) → cstr buf = [])
      ∧ ((∀ c ∈ s.head?, is_trim_char c = false) → buf = s ++ NUL :: rest) := by
  obtain ⟨tail, h1, _, h3⟩ := trimLeading_result s rest h
  have hbody : NUL ∉ s.dropWhile is_trim_char :=
    fun hm => h ((List.dropWhile_suffix is_trim_char).subset hm)
  have hc : cstr (s.dropWhile is_trim_char ++ NUL :: tail) = s.dropWhile is_trim_char :=
    cstr_append_nul _ _ hbody
  refine ⟨_, h1, hc, ?_, ?_, ?_, ?_⟩
  · rw [hc, List.takeWhile_append_dropWhile]
  · rw [hc]
    intro c hcm
    cases hd : s.dropWhile is_trim_char with
    | nil => simp [hd] at hcm
    | cons x t =>
      have := List.head_dropWhile_not is_trim_char s (by simp [hd])
      simp only [hd, List.head?_cons, Option.mem_def, Option.some.injEq] at hcm
      subst hcm
      simpa [hd] using this
  · intro hall
    rw [hc]
    exact List.dropWhile_eq_nil_iff.mpr hall
  · intro hhead
    have ht : s.takeWhile is_trim_char = [] := by
      cases s with
      | nil => rfl
      | cons x t =>
        have hx := hhead x (by simp)
        simp [List.takeWhile_cons, hx]
    have hd : s.dropWhile is_trim_char = s := by
      have := List.takeWhile_append_dropWhile is_trim_char s
      rw [ht] at this
      simpa using this
    rw [hd, h3 ht]

/-- C3, at three buffers: space, tab, newline before a carriage return and
`a b`; only spaces, tabs and newlines; a leading carriage return. -/
theorem trimLeading_removes_leading_run_witness :
    (NUL ∉ " \t\n\ra b".toList
        ∧ ∃ buf, trimLeading (" \t\n\ra b".toList ++ NUL :: ['x']) = some buf
          ∧ cstr buf = "\ra b".toList)
      ∧ ((NUL ∉ " \t\n ".toList ∧ ∀ c ∈ " \t\n ".toList, is_trim_char c = true)
        ∧ ∃ buf, trimLeading (" \t\n ".toList ++ NUL :: ['x']) = some buf ∧ cstr buf = [])
      ∧ ((NUL ∉ "\r a".toList ∧ ∀ c ∈ "\r a".toList.head?, is_trim_char c = false)
        ∧ ∃ buf, trimLeading ("\r a".toList ++ NUL :: ['x']) = some buf
          ∧ buf = "\r a".toList ++ NUL :: ['x']) :=
  ⟨⟨by decide,
      (trimLeading_removes_leading_run " \t\n\ra b".toList ['x'] (by decide)).imp
        (fun _ h => ⟨h.1, h.2.1.trans (by decide)⟩)⟩,
    ⟨⟨by decide, by decide⟩,
      (trimLeading_removes_leading_run " \t\n ".toList ['x'] (by decide)).imp
        (fun _ h => ⟨h.1, h.2.2.2.2.1 (by decide)⟩)⟩,
    ⟨⟨by decide, by decide⟩,
      (trimLeading_removes_leading_run "\r a".toList ['x'] (by decide)).imp
        (fun _ h => ⟨h.1, h.2.2.2.2.2 (by decide)⟩)⟩⟩

/-- C4: for each of the three interpreters and every NUL-terminated line
that contains `OK` anywhere, handling the line marks the command completed
with state Success: the completion state is Success afterwards and the
dispatcher is notified once. The battery parser dereferences
`priv_resource` when the trimmed line starts with `+CBC`; it is then run
while `priv_resource` points to the live `resource` array. -/
theorem ok_line_signals_success (w : World) (s rest : List Char)
    (hnul : NUL ∉ s) (hok : "OK".toList <:+: s) :
    example_default_handle w (s ++ NUL :: rest)
        = esp_modem_process_command_done w MODEM_STATE_SUCCESS
      ∧ (example_default_handle w (s ++ NUL :: rest)).2.bg96_dce.parent.state
          = MODEM_STATE_SUCCESS
      ∧ (sim7600_handle_cclk w (s ++ NUL :: rest)).2.bg96_dce.parent.state
          = MODEM_STATE_SUCCESS
      ∧ (sim7600_handle_cclk w (s ++ NUL :: rest)).2.cmd_done = w.cmd_done + 1
      ∧ ((¬ "+CBC".toList <+: s.dropWhile is_trim_char
            ∨ ∃ cbc : resource_frame,
                w.bg96_dce.priv_resource = some cbc.activation ∧ w.frame = some cbc) →
          ∃ r, sim7600_handle_cbc w (s ++ NUL :: rest) = some r
            ∧ r.2.1.bg96_dce.parent.state = MODEM_STATE_SUCCESS
            ∧ r.2.1.cmd_done = w.cmd_done + 1) := by
  have hok1 : MODEM_RESULT_CODE_SUCCESS <:+: s := hok
  have hd : example_default_handle w (s ++ NUL :: rest)
      = esp_modem_process_command_done w MODEM_STATE_SUCCESS := by
    unfold example_default_handle
    rw [cstr_append_nul _ _ hnul, handle_result_code_ok w s hok1]
  refine ⟨hd, ?_, ?_, ?_, ?_⟩
  · rw [hd]
    rfl
  · unfold sim7600_handle_cclk
    simp only [cstr_append_nul _ _ hnul, handle_result_code_ok w s hok1]
    split <;> rfl
  · unfold sim7600_handle_cclk
    simp only [cstr_append_nul _ _ hnul, handle_result_code_ok w s hok1]
    split <;> rfl
  · intro hres
    have hok2 : MODEM_RESULT_CODE_SUCCESS <:+: s.dropWhile is_trim_char := by
      rw [success_code_eq] at hok1 ⊢
      exact infix_dropWhile_trim _ _ (by decide) s hok1
    by_cases hpre : "+CBC".toList <+: s.dropWhile is_trim_char
    · rcases hres with hno | ⟨cbc, hp, hf⟩
      · exact absurd hpre hno
      · obtain ⟨tail, hu⟩ := handle_cbc_starts w cbc s rest hnul hpre hp hf
        rw [hu, handle_result_code_ok w _ hok2]
        exact ⟨_, rfl, rfl, rfl⟩
    · have hne : ¬ strncmp (s.dropWhile is_trim_char) "+CBC".toList
          (strlen "+CBC".toList) = 0 :=
        fun e => hpre ((strncmp_eq_zero_iff _ _ (by decide)).mp e)
      obtain ⟨tail, hu⟩ := handle_cbc_unfold w s rest hnul
      rw [hu, if_neg hne, handle_result_code_ok w _ hok2]
      exact ⟨_, rfl, rfl, rfl⟩

/-- C4, at the lines `garbageOKgarbage` and `+CBC: 4.05V OK`. -/
theorem ok_line_signals_success_witness :
    ((NUL ∉ "garbageOKgarbage".toList ∧ "OK".toList <:+: "garbageOKgarbage".toList
        ∧ ¬ "+CBC".toList <+: "garbageOKgarbage".toList.dropWhile is_trim_char)
      ∧ (example_default_handle world0 ("garbageOKgarbage".toList ++ NUL :: [])).2.bg96_dce.parent.state
          = MODEM_STATE_SUCCESS
      ∧ (sim7600_handle_cclk world0
          ("garbageOKgarbage".toList ++ NUL :: [])).2.bg96_dce.parent.state
          = MODEM_STATE_SUCCESS
      ∧ ∃ r, sim7600_handle_cbc world0 ("garbageOKgarbage".toList ++ NUL :: []) = some r
          ∧ r.2.1.bg96_dce.parent.state = MODEM_STATE_SUCCESS
          ∧ r.2.1.cmd_done = world0.cmd_done + 1)
      ∧ ((NUL ∉ "+CBC: 4.05V OK".toList ∧ "OK".toList <:+: "+CBC: 4.05V OK".toList
          ∧ world_cbc.bg96_dce.priv_resource = some 0
          ∧ world_cbc.frame = some ⟨0, 0, 1, 2⟩)
        ∧ ∃ r, sim7600_handle_cbc world_cbc ("+CBC: 4.05V OK".toList ++ NUL :: []) = some r
            ∧ r.2.1.bg96_dce.parent.state = MODEM_STATE_SUCCESS
            ∧ r.2.1.cmd_done = world_cbc.cmd_done + 1) :=
  ⟨⟨⟨by decide, by decide, by decide⟩,
      (ok_line_signals_success world0 "garbageOKgarbage".toList [] (by decide)
        (by decide)).2.1,
      (ok_line_signals_success world0 "garbageOKgarbage".toList [] (by decide)
        (by decide)).2.2.1,
      (ok_line_signals_success world0 "garbageOKgarbage".toList [] (by decide)
        (by decide)).2.2.2.2 (Or.inl (by decide))⟩,
    ⟨by decide, by decide, rfl, rfl⟩,
    (ok_line_signals_success world_cbc "+CBC: 4.05V OK".toList [] (by decide)
      (by decide)).2.2.2.2 (Or.inr ⟨⟨0, 0, 1, 2⟩, rfl, rfl⟩)⟩

/-- C5, as stated, fails: the line `ERROR OK` contains the error token, yet
`example_default_handle` leaves the completion state Success, because the
success token is looked for first. -/
theorem error_line_with_ok_counterexample :
    ¬ ∀ (w : World) (s rest : List Char), NUL ∉ s → "ERROR".toList <:+: s →
        (example_default_handle w (s ++ NUL :: rest)).2.bg96_dce.parent.state
          = MODEM_STATE_FAIL := by
  intro h
  have h1 := h world0 "ERROR OK".toList [] (by decide) ⟨[], " OK".toList, by decide⟩
  revert h1
  decide

/-- C5, amended: for every NUL-terminated line that contains `ERROR` and does
not contain `OK`, `example_default_handle` marks the command completed with
state Fail. -/
theorem error_line_signals_fail (w : World) (s rest : List Char) (hnul : NUL ∉ s)
    (hok : ¬ "OK".toList <:+: s) (herr : "ERROR".toList <:+: s) :
    example_default_handle w (s ++ NUL :: rest)
        = esp_modem_process_command_done w MODEM_STATE_FAIL
      ∧ (example_default_handle w (s ++ NUL :: rest)).2.bg96_dce.parent.state
          = MODEM_STATE_FAIL
      ∧ (example_default_handle w (s ++ NUL :: rest)).2.cmd_done = w.cmd_done + 1 := by
  have hd : example_default_handle w (s ++ NUL :: rest)
      = esp_modem_process_command_done w MODEM_STATE_FAIL := by
    unfold example_default_handle
    rw [cstr_append_nul _ _ hnul, handle_result_code_error w s hok herr]
  refine ⟨hd, ?_, ?_⟩
  · rw [hd]
    rfl
  · rw [hd]
    rfl

/-- C5, amended, at the line `+CME ERROR: 10`. -/
theorem error_line_signals_fail_witness :
    (NUL ∉ "+CME ERROR: 10".toList ∧ ¬ "OK".toList <:+: "+CME ERROR: 10".toList
        ∧ "ERROR".toList <:+: "+CME ERROR: 10".toList)
      ∧ (example_default_handle world0 ("+CME ERROR: 10".toList ++ NUL :: [])
          = esp_modem_process_command_done world0 MODEM_STATE_FAIL
        ∧ (example_default_handle world0
            ("+CME ERROR: 10".toList ++ NUL :: [])).2.bg96_dce.parent.state = MODEM_STATE_FAIL
        ∧ (example_default_handle world0 ("+CME ERROR: 10".toList ++ NUL :: [])).2.cmd_done
            = world0.cmd_done + 1) :=
  ⟨⟨by decide, by decide, by decide⟩,
    error_line_signals_fail world0 "+CME ERROR: 10".toList [] (by decide) (by decide)
      (by decide)⟩

/-- C6, as stated, fails for the battery parser: the line ` +CBC: 4.05V`
(one leading space) contains neither `OK` nor `ERROR` and does not start
with `+CBC`, yet `sim7600_handle_cbc` trims it, recognises the prefix and
overwrites the voltage output, which was 0, with 4005. -/
theorem unrelated_line_cbc_counterexample :
    ¬ "OK".toList <:+: " +CBC: 4.05V".toList
      ∧ ¬ "ERROR".toList <:+: " +CBC: 4.05V".toList
      ∧ ¬ "+CBC".toList <+: " +CBC: 4.05V".toList
      ∧ world_cbc.cells 2 = 0
      ∧ (sim7600_handle_cbc world_cbc (" +CBC: 4.05V".toList ++ NUL :: [])).map
          (fun r => (r.1, r.2.1.cells 0, r.2.1.cells 1, r.2.1.cells 2))
        = some (ESP_OK, -1, -1, 4005) := by
  decide

/-- C6, amended: for every NUL-terminated line that contains neither `OK` nor
`ERROR`, the generic interpreter returns `ESP_FAIL` and leaves the whole
state as it was; so does the clock parser when the line does not start with
`+CCLK`; and so does the battery parser when the line, once its leading
spaces, tabs and newlines are removed, does not start with `+CBC`. The
completion state, the battery outputs and the clock reading and offset are
then what they were before the line. -/
theorem unrelated_line_leaves_state (w : World) (s rest : List Char) (hnul : NUL ∉ s)
    (hok : ¬ "OK".toList <:+: s) (herr : ¬ "ERROR".toList <:+: s) :
    example_default_handle w (s ++ NUL :: rest) = (ESP_FAIL, w)
      ∧ (¬ "+CCLK".toList <+: s → sim7600_handle_cclk w (s ++ NUL :: rest) = (ESP_FAIL, w))
      ∧ (¬ "+CBC".toList <+: s.dropWhile is_trim_char →
          ∃ line1, sim7600_handle_cbc w (s ++ NUL :: rest) = some (ESP_FAIL, w, line1)) := by
  have hok1 : ¬ MODEM_RESULT_CODE_SUCCESS <:+: s := hok
  have herr1 : ¬ MODEM_RESULT_CODE_ERROR <:+: s := herr
  refine ⟨?_, ?_, ?_⟩
  · unfold example_default_handle
    rw [cstr_append_nul _ _ hnul, handle_result_code_neither w s hok1 herr1]
  · intro hpre
    have hne : ¬ strncmp s "+CCLK".toList (strlen "+CCLK".toList) = 0 :=
      fun e => hpre ((strncmp_eq_zero_iff _ _ (by decide)).mp e)
    unfold sim7600_handle_cclk
    simp only [cstr_append_nul _ _ hnul, handle_result_code_neither w s hok1 herr1, hne,
      if_false]
  · intro hpre
    have hne : ¬ strncmp (s.dropWhile is_trim_char) "+CBC".toList (strlen "+CBC".toList) = 0 :=
      fun e => hpre ((strncmp_eq_zero_iff _ _ (by decide)).mp e)
    obtain ⟨tail, hu⟩ := handle_cbc_unfold w s rest hnul
    rw [hu, if_neg hne, handle_result_code_neither w _ (not_infix_dropWhile_trim _ _ hok1)
      (not_infix_dropWhile_trim _ _ herr1)]
    exact ⟨_, rfl⟩

/-- C6, amended, at the command echo `AT+CBC` preceded by a space. -/
theorem unrelated_line_leaves_state_witness :
    (NUL ∉ " AT+CBC\r".toList ∧ ¬ "OK".toList <:+: " AT+CBC\r".toList
        ∧ ¬ "ERROR".toList <:+: " AT+CBC\r".toList
        ∧ ¬ "+CCLK".toList <+: " AT+CBC\r".toList
        ∧ ¬ "+CBC".toList <+: " AT+CBC\r".toList.dropWhile is_trim_char)
      ∧ example_default_handle world_cbc (" AT+CBC\r".toList ++ NUL :: [])
          = (ESP_FAIL, world_cbc)
      ∧ sim7600_handle_cclk world_cbc (" AT+CBC\r".toList ++ NUL :: []) = (ESP_FAIL, world_cbc)
      ∧ ∃ line1, sim7600_handle_cbc world_cbc (" AT+CBC\r".toList ++ NUL :: [])
          = some (ESP_FAIL, world_cbc, line1) :=
  ⟨⟨by decide, by decide, by decide, by decide, by decide⟩,
    (unrelated_line_leaves_state world_cbc " AT+CBC\r".toList [] (by decide) (by decide)
      (by decide)).1,
    (unrelated_line_leaves_state world_cbc " AT+CBC\r".toList [] (by decide) (by decide)
      (by decide)).2.1 (by decide),
    (unrelated_line_leaves_state world_cbc " AT+CBC\r".toList [] (by decide) (by decide)
      (by decide)).2.2 (by decide)⟩

/-- C7: for every dispatcher and every state, the commands
`sim7600_NetTimeSetup` submits form a prefix of the fixed order `AT+CCLK?`,
`AT+CNTP="ntp.time.nl",28`, `AT+CNTP`, starting with the first command as
sent to the dispatcher with the generic interpreter installed; every
submission but the last one returned `ESP_OK` and left the completion state
Success, so a step is submitted only after every earlier step succeeded; if
the second step does not succeed the third command is not submitted; and the
routine returns `ESP_OK` exactly when three steps were submitted and all
succeeded, `ESP_FAIL` otherwise. The run is determined step by step by what
the dispatcher answers: the first step is always submitted; when it does not
succeed the run ends there with `ESP_FAIL`; when it succeeds the second step
is submitted, in the state the first left; when that one does not succeed
the run ends with `ESP_FAIL`; when it succeeds the third step is submitted,
and the routine returns `ESP_OK` if it succeeds and `ESP_FAIL` if not. In
particular, when every submitted step succeeds all three are submitted. -/
theorem NetTimeSetup_submits_in_order (dte : modem_dte_t) (w : World) :
    (submissions (sim7600_NetTimeSetup dte w).trace).map (fun x => x.1)
        <+: NetTimeSetup_commands
      ∧ (submissions (sim7600_NetTimeSetup dte w).trace).head?
          = some ("AT+CCLK?\r",
              (dte.send_cmd (w.set_handle_line line_handler.example_default_handle)
                "AT+CCLK?\r" MODEM_COMMAND_TIMEOUT_DEFAULT).1,
              (dte.send_cmd (w.set_handle_line line_handler.example_default_handle)
                "AT+CCLK?\r" MODEM_COMMAND_TIMEOUT_DEFAULT).2.bg96_dce.parent.state)
      ∧ (∀ x ∈ (submissions (sim7600_NetTimeSetup dte w).trace).dropLast, step_succeeded x)
      ∧ (∀ x, (submissions (sim7600_NetTimeSetup dte w).trace)[1]? = some x →
          ¬ step_succeeded x →
          "AT+CNTP\r" ∉ (submissions (sim7600_NetTimeSetup dte w).trace).map (fun x => x.1))
      ∧ ((sim7600_NetTimeSetup dte w).ret = ESP_OK ↔
          (submissions (sim7600_NetTimeSetup dte w).trace).length = 3
            ∧ ∀ x ∈ submissions (sim7600_NetTimeSetup dte w).trace, step_succeeded x)
      ∧ ((sim7600_NetTimeSetup dte w).ret = ESP_OK
          ∨ (sim7600_NetTimeSetup dte w).ret = ESP_FAIL)
      ∧ (¬ step_succeeded (step_answer dte w "AT+CCLK?\r" MODEM_COMMAND_TIMEOUT_DEFAULT) →
          submissions (sim7600_NetTimeSetup dte w).trace
              = [step_answer dte w "AT+CCLK?\r" MODEM_COMMAND_TIMEOUT_DEFAULT]
            ∧ (sim7600_NetTimeSetup dte w).ret = ESP_FAIL
            ∧ (sim7600_NetTimeSetup dte w).world
              = step_world dte w "AT+CCLK?\r" MODEM_COMMAND_TIMEOUT_DEFAULT)
      ∧ (step_succeeded (step_answer dte w "AT+CCLK?\r" MODEM_COMMAND_TIMEOUT_DEFAULT) →
          ¬ step_succeeded
            (step_answer dte (step_world dte w "AT+CCLK?\r" MODEM_COMMAND_TIMEOUT_DEFAULT)
              "AT+CNTP=\"ntp.time.nl\",28\r" (ms 5000)) →
          submissions (sim7600_NetTimeSetup dte w).trace
              = [step_answer dte w "AT+CCLK?\r" MODEM_COMMAND_TIMEOUT_DEFAULT,
                 step_answer dte (step_world dte w "AT+CCLK?\r" MODEM_COMMAND_TIMEOUT_DEFAULT)
                   "AT+CNTP=\"ntp.time.nl\",28\r" (ms 5000)]
            ∧ (sim7600_NetTimeSetup dte w).ret = ESP_FAIL
            ∧ (sim7600_NetTimeSetup dte w).world
              = step_world dte (step_world dte w "AT+CCLK?\r" MODEM_COMMAND_TIMEOUT_DEFAULT)
                  "AT+CNTP=\"ntp.time.nl\",28\r" (ms 5000))
      ∧ (step_succeeded (step_answer dte w "AT+CCLK?\r" MODEM_COMMAND_TIMEOUT_DEFAULT) →
          step_succeeded
            (step_answer dte (step_world dte w "AT+CCLK?\r" MODEM_COMMAND_TIMEOUT_DEFAULT)
              "AT+CNTP=\"ntp.time.nl\",28\r" (ms 5000)) →
          submissions (sim7600_NetTimeSetup dte w).trace
              = [step_answer dte w "AT+CCLK?\r" MODEM_COMMAND_TIMEOUT_DEFAULT,
                 step_answer dte (step_world dte w "AT+CCLK?\r" MODEM_COMMAND_TIMEOUT_DEFAULT)
                   "AT+CNTP=\"ntp.time.nl\",28\r" (ms 5000),
                 step_answer dte
                   (step_world dte (step_world dte w "AT+CCLK?\r" MODEM_COMMAND_TIMEOUT_DEFAULT)
                     "AT+CNTP=\"ntp.time.nl\",28\r" (ms 5000))
                   "AT+CNTP\r" (ms 5000)]
            ∧ (sim7600_NetTimeSetup dte w).world
              = step_world dte
                  (step_world dte (step_world dte w "AT+CCLK?\r" MODEM_COMMAND_TIMEOUT_DEFAULT)
                    "AT+CNTP=\"ntp.time.nl\",28\r" (ms 5000))
                  "AT+CNTP\r" (ms 5000)
            ∧ ((sim7600_NetTimeSetup dte w).ret = ESP_OK ↔
                step_succeeded
                  (step_answer dte
                    (step_world dte
                      (step_world dte w "AT+CCLK?\r" MODEM_COMMAND_TIMEOUT_DEFAULT)
                      "AT+CNTP=\"ntp.time.nl\",28\r" (ms 5000))
                    "AT+CNTP\r" (ms 5000)))
            ∧ (¬ step_succeeded
                  (step_answer dte
                    (step_world dte
                      (step_world dte w "AT+CCLK?\r" MODEM_COMMAND_TIMEOUT_DEFAULT)
                      "AT+CNTP=\"ntp.time.nl\",28\r" (ms 5000))
                    "AT+CNTP\r" (ms 5000)) →
                (sim7600_NetTimeSetup dte w).ret = ESP_FAIL))
      ∧ ((∀ x ∈ submissions (sim7600_NetTimeSetup dte w).trace, step_succeeded x) →
          (submissions (sim7600_NetTimeSetup dte w).trace).map (fun x => x.1)
              = NetTimeSetup_commands
            ∧ (sim7600_NetTimeSetup dte w).ret = ESP_OK) := by
  have hne : ESP_FAIL ≠ ESP_OK := by decide
  unfold sim7600_NetTimeSetup submit step_answer step_world
  simp only []
  split_ifs with h1 h2 h3 h4 h5 h6 <;>
    simp_all [submissions, step_succeeded, NetTimeSetup_commands, hne]

/-- C7, with the dispatcher that completes every command with Success (all
three steps are submitted and the routine returns `ESP_OK`) and with the
dispatcher that completes the second command with Fail (two steps are
submitted and the routine returns `ESP_FAIL`), from the initial state. -/
theorem NetTimeSetup_submits_in_order_witness :
    (submissions (sim7600_NetTimeSetup dte_success world0).trace
        = [("AT+CCLK?\r", ESP_OK, MODEM_STATE_SUCCESS),
           ("AT+CNTP=\"ntp.time.nl\",28\r", ESP_OK, MODEM_STATE_SUCCESS),
           ("AT+CNTP\r", ESP_OK, MODEM_STATE_SUCCESS)]
      ∧ (sim7600_NetTimeSetup dte_success world0).ret = ESP_OK)
      ∧ (submissions
          (sim7600_NetTimeSetup (dte_fail_on "AT+CNTP=\"ntp.time.nl\",28\r") world0).trace
        = [("AT+CCLK?\r", ESP_OK, MODEM_STATE_SUCCESS),
           ("AT+CNTP=\"ntp.time.nl\",28\r", ESP_OK, MODEM_STATE_FAIL)]
      ∧ (sim7600_NetTimeSetup (dte_fail_on "AT+CNTP=\"ntp.time.nl\",28\r") world0).ret
        = ESP_FAIL) :=
  ⟨⟨((NetTimeSetup_submits_in_order dte_success world0).2.2.2.2.2.2.2.2.1
        ⟨rfl, rfl⟩ ⟨rfl, rfl⟩).1,
      ((NetTimeSetup_submits_in_order dte_success world0).2.2.2.2.2.2.2.2.1
        ⟨rfl, rfl⟩ ⟨rfl, rfl⟩).2.2.1.mpr ⟨rfl, rfl⟩⟩,
    ((NetTimeSetup_submits_in_order (dte_fail_on "AT+CNTP=\"ntp.time.nl\",28\r")
        world0).2.2.2.2.2.2.2.1 ⟨rfl, by decide⟩ (fun h => absurd h.2 (by decide))).1,
    ((NetTimeSetup_submits_in_order (dte_fail_on "AT+CNTP=\"ntp.time.nl\",28\r")
        world0).2.2.2.2.2.2.2.1 ⟨rfl, by decide⟩ (fun h => absurd h.2 (by decide))).2.1⟩

/-- C8: `sim7600_get_battery_status` and `sim7600_get_NetTime` each submit
one command, with their own interpreter installed, and return `ESP_OK`
exactly when `send_cmd` returned `ESP_OK` and the completion state after the
send is Success; they return `ESP_FAIL` when the send fails and when the
completion state is Fail. -/
theorem query_returns_ok_iff_send_ok_and_success (dte : modem_dte_t) (w : World)
    (bcs bcl voltage : Nat) :
    (∃ w1 r st, w1.bg96_dce.parent.handle_line = line_handler.sim7600_handle_cbc
        ∧ r = (dte.send_cmd w1 "AT+CBC\r" MODEM_COMMAND_TIMEOUT_DEFAULT).1
        ∧ st = (dte.send_cmd w1 "AT+CBC\r"
            MODEM_COMMAND_TIMEOUT_DEFAULT).2.bg96_dce.parent.state
        ∧ submissions (sim7600_get_battery_status dte w bcs bcl voltage).trace
            = [("AT+CBC\r", r, st)]
        ∧ ((sim7600_get_battery_status dte w bcs bcl voltage).ret = ESP_OK ↔
            r = ESP_OK ∧ st = MODEM_STATE_SUCCESS)
        ∧ (r ≠ ESP_OK → (sim7600_get_battery_status dte w bcs bcl voltage).ret = ESP_FAIL)
        ∧ (st = MODEM_STATE_FAIL →
            (sim7600_get_battery_status dte w bcs bcl voltage).ret = ESP_FAIL))
      ∧ (∃ w1 r st, w1.bg96_dce.parent.handle_line = line_handler.sim7600_handle_cclk
        ∧ r = (dte.send_cmd w1 "AT+CCLK?\r" MODEM_COMMAND_TIMEOUT_DEFAULT).1
        ∧ st = (dte.send_cmd w1 "AT+CCLK?\r"
            MODEM_COMMAND_TIMEOUT_DEFAULT).2.bg96_dce.parent.state
        ∧ submissions (sim7600_get_NetTime dte w).trace = [("AT+CCLK?\r", r, st)]
        ∧ ((sim7600_get_NetTime dte w).ret = ESP_OK ↔ r = ESP_OK ∧ st = MODEM_STATE_SUCCESS)
        ∧ (r ≠ ESP_OK → (sim7600_get_NetTime dte w).ret = ESP_FAIL)
        ∧ (st = MODEM_STATE_FAIL → (sim7600_get_NetTime dte w).ret = ESP_FAIL)) := by
  have hne : ESP_FAIL ≠ ESP_OK := by decide
  constructor
  · refine ⟨(({ w with
          frame := some { activation := w.activations, bcs := bcs, bcl := bcl,
                          voltage := voltage },
          activations := w.activations + 1 } : World).set_priv_resource
        (some w.activations)).set_handle_line line_handler.sim7600_handle_cbc,
      _, _, rfl, rfl, rfl, ?_⟩
    unfold sim7600_get_battery_status submit
    simp only []
    split_ifs with h1 h2 <;> simp_all [submissions, hne]
  · refine ⟨w.set_handle_line line_handler.sim7600_handle_cclk, _, _, rfl, rfl, rfl, ?_⟩
    unfold sim7600_get_NetTime submit
    simp only []
    split_ifs with h1 h2 <;> simp_all [submissions, hne]

/-- C11, on the code: the reason logged when step 2 (`AT+CNTP="ntp.time.nl",28`)
ends in a Fail completion is `send AT+CLTS=1 failed`, the same as the reason
logged when step 3 (`AT+CNTP`) ends in a Fail completion; only step 1 has a
reason of its own, `send AT+CCLK? failed`. -/
theorem NetTimeSetup_step_reasons :
    reasons (sim7600_NetTimeSetup (dte_fail_on "AT+CNTP=\"ntp.time.nl\",28\r") world0).trace
        = ["send AT+CLTS=1 failed"]
      ∧ reasons (sim7600_NetTimeSetup (dte_fail_on "AT+CNTP\r") world0).trace
        = ["send AT+CLTS=1 failed"]
      ∧ reasons (sim7600_NetTimeSetup (dte_fail_on "AT+CCLK?\r") world0).trace
        = ["send AT+CCLK? failed"]
      ∧ (submissions
          (sim7600_NetTimeSetup (dte_fail_on "AT+CNTP=\"ntp.time.nl\",28\r") world0).trace).length
        = 2
      ∧ (submissions (sim7600_NetTimeSetup (dte_fail_on "AT+CNTP\r") world0).trace).length = 3
      ∧ (sim7600_NetTimeSetup (dte_fail_on "AT+CNTP=\"ntp.time.nl\",28\r") world0).ret
        = ESP_FAIL
      ∧ (sim7600_NetTimeSetup (dte_fail_on "AT+CNTP\r") world0).ret = ESP_FAIL := by
  decide

/-- C12: `trimLeading` is idempotent: for every NUL-terminated buffer, a
second call returns and leaves the buffer, hence the string, exactly as the
first call left it. -/
theorem trimLeading_idempotent (s rest : List Char) (h : NUL ∉ s) :
    ∃ buf, trimLeading (s ++ NUL :: rest) = some buf
      ∧ trimLeading buf = some buf
      ∧ (trimLeading buf).map cstr = (trimLeading (s ++ NUL :: rest)).map cstr := by
  obtain ⟨tail, h1, _, _⟩ := trimLeading_result s rest h
  have hbody : NUL ∉ s.dropWhile is_trim_char :=
    fun hm => h ((List.dropWhile_suffix is_trim_char).subset hm)
  obtain ⟨tail2, h2, _, h3⟩ := trimLeading_result (s.dropWhile is_trim_char) tail hbody
  have ht : (s.dropWhile is_trim_char).takeWhile is_trim_char = [] := by
    cases hd : s.dropWhile is_trim_char with
    | nil => rfl
    | cons x t =>
      have := List.head_dropWhile_not is_trim_char s (by simp [hd])
      have hx : is_trim_char x = false := by simpa [hd] using this
      simp [List.takeWhile_cons, hx]
  have hdd : (s.dropWhile is_trim_char).dropWhile is_trim_char = s.dropWhile is_trim_char := by
    have := List.takeWhile_append_dropWhile is_trim_char (s.dropWhile is_trim_char)
    rw [ht] at this
    simpa using this
  have h4 : trimLeading (s.dropWhile is_trim_char ++ NUL :: tail)
      = some (s.dropWhile is_trim_char ++ NUL :: tail) := by
    rw [h2, hdd, h3 ht]
  exact ⟨_, h1, h4, by rw [h4, h1]⟩

/-- C12, at the buffer holding two spaces, a tab, `ab`, a space and `c`. -/
theorem trimLeading_idempotent_witness :
    NUL ∉ "  \tab c".toList
      ∧ ∃ buf, trimLeading ("  \tab c".toList ++ NUL :: ['x', 'y']) = some buf
        ∧ trimLeading buf = some buf
        ∧ (trimLeading buf).map cstr
          = (trimLeading ("  \tab c".toList ++ NUL :: ['x', 'y'])).map cstr :=
  ⟨by decide, trimLeading_idempotent "  \tab c".toList ['x', 'y'] (by decide)⟩

/-- C13: for every buffer with its first NUL at index `n = s.length`,
`trimLeading` returns; it returns as well on the buffer cut right after the
terminator, where any read or write at an index above `n` fails, so every
index it reads or writes is at most `n`; the result on the whole buffer is
the result on the cut buffer followed by the bytes above `n`, unchanged; and
the resulting string is not longer than the original one. -/
theorem trimLeading_stays_in_string (s rest : List Char) (h : NUL ∉ s) :
    ∃ head, trimLeading (s ++ [NUL]) = some head
      ∧ head.length = s.length + 1
      ∧ trimLeading (s ++ NUL :: rest) = some (head ++ rest)
      ∧ (cstr (head ++ rest)).length ≤ (cstr (s ++ NUL :: rest)).length := by
  have hlen : (s.dropWhile is_trim_char).length ≤ s.length :=
    (List.dropWhile_suffix is_trim_char).length_le
  have hbody : NUL ∉ s.dropWhile is_trim_char :=
    fun hm => h ((List.dropWhile_suffix is_trim_char).subset hm)
  have e1 := trimLeading_eq s [] h
  have e2 := trimLeading_eq s rest h
  have hsplit : s ++ NUL :: rest = (s ++ [NUL]) ++ rest := by simp
  have hdrop : (s ++ NUL :: rest).drop ((s.dropWhile is_trim_char).length + 1)
      = (s ++ [NUL]).drop ((s.dropWhile is_trim_char).length + 1) ++ rest := by
    rw [hsplit, List.drop_append_of_le_length (by simp; omega)]
  refine ⟨_, e1, ?_, ?_, ?_⟩
  · simp
    omega
  · rw [e2, hdrop]
    simp
  · have hc : cstr ((s.dropWhile is_trim_char
        ++ NUL :: (s ++ [NUL]).drop ((s.dropWhile is_trim_char).length + 1)) ++ rest)
        = s.dropWhile is_trim_char := by
      rw [List.append_assoc, List.cons_append]
      exact cstr_append_nul _ _ hbody
    rw [hc, cstr_append_nul _ _ h]
    exact hlen

/-- C13, at the buffer holding a space, a newline and `ab`, with two bytes
after the terminator. -/
theorem trimLeading_stays_in_string_witness :
    NUL ∉ " \nab".toList
      ∧ ∃ head, trimLeading (" \nab".toList ++ [NUL]) = some head
        ∧ head.length = " \nab".toList.length + 1
        ∧ trimLeading (" \nab".toList ++ NUL :: ['x', 'y']) = some (head ++ ['x', 'y'])
        ∧ (cstr (head ++ ['x', 'y'])).length
          ≤ (cstr (" \nab".toList ++ NUL :: ['x', 'y'])).length :=
  ⟨by decide, trimLeading_stays_in_string " \nab".toList ['x', 'y'] (by decide)⟩

/-- C14, as stated, fails: the line `+CBC: 4.05V OK` contains `OK`, and
`sim7600_handle_cbc` both signals Success and overwrites the outputs
(voltage 0 before, 4005 after); the line `+CCLK: "24/03/05,08:15:30+28" OK`
makes `sim7600_handle_cclk` both signal Success and store the year. -/
theorem completion_line_parsed_counterexample :
    ("OK".toList <:+: "+CBC: 4.05V OK".toList
        ∧ world_cbc.cells 2 = 0
        ∧ (sim7600_handle_cbc world_cbc ("+CBC: 4.05V OK".toList ++ NUL :: [])).map
            (fun r => (r.1, r.2.1.bg96_dce.parent.state, r.2.1.cells 0, r.2.1.cells 1,
              r.2.1.cells 2))
          = some (ESP_OK, MODEM_STATE_SUCCESS, -1, -1, 4005))
      ∧ ("OK".toList <:+: "+CCLK: \"24/03/05,08:15:30+28\" OK".toList
        ∧ world0._sim_rtc.tm_year = 0
        ∧ (sim7600_handle_cclk world0
            ("+CCLK: \"24/03/05,08:15:30+28\" OK".toList ++ NUL :: [])).2._sim_rtc.tm_year
          = 124
        ∧ (sim7600_handle_cclk world0
            ("+CCLK: \"24/03/05,08:15:30+28\" OK".toList
              ++ NUL :: [])).2.bg96_dce.parent.state
          = MODEM_STATE_SUCCESS) := by
  decide

/-- C14, amended: the rules OK and ERROR form an exclusive chain and the
prefix rule is applied after it, independently. For every NUL-terminated
line that contains `OK` (completion state `st` Success) or contains `ERROR`
and not `OK` (`st` Fail): when the line does not start with the parser's
prefix (after trimming, for the battery parser) the parser only marks the
command completed with `st`; when it does, the parser marks the command
completed with `st`, and also parses the line, stores the result and returns
`ESP_OK`: the clock parser stores every field the scan assigns (the year
rebased, the offset divided by 4), the battery parser stores -1, -1 and the
voltage. -/
theorem completion_line_parsed_when_line_starts (w : World)
    (s rest : List Char) (st : modem_state_t) (hnul : NUL ∉ s)
    (hst : ("OK".toList <:+: s ∧ st = MODEM_STATE_SUCCESS)
      ∨ (¬ "OK".toList <:+: s ∧ "ERROR".toList <:+: s ∧ st = MODEM_STATE_FAIL)) :
    (¬ "+CCLK".toList <+: s →
        sim7600_handle_cclk w (s ++ NUL :: rest) = esp_modem_process_command_done w st)
      ∧ ("+CCLK".toList <+: s →
        (sim7600_handle_cclk w (s ++ NUL :: rest)).1 = ESP_OK
          ∧ (sim7600_handle_cclk w (s ++ NUL :: rest)).2.bg96_dce.parent.state = st
          ∧ (sim7600_handle_cclk w (s ++ NUL :: rest)).2._sim_rtc_timezone
            = Int.tdiv ((sscanf s cclk_format).getD 6 w._sim_rtc_timezone) 4
          ∧ (sim7600_handle_cclk w (s ++ NUL :: rest)).2._sim_rtc
            = { w._sim_rtc with
                tm_year := wrap32 (wrap32 ((sscanf s cclk_format).getD 0 w._sim_rtc.tm_year
                  + 2000) - 1900)
                tm_mon := (sscanf s cclk_format).getD 1 w._sim_rtc.tm_mon
                tm_mday := (sscanf s cclk_format).getD 2 w._sim_rtc.tm_mday
                tm_hour := (sscanf s cclk_format).getD 3 w._sim_rtc.tm_hour
                tm_min := (sscanf s cclk_format).getD 4 w._sim_rtc.tm_min
                tm_sec := (sscanf s cclk_format).getD 5 w._sim_rtc.tm_sec }
          ∧ (∀ v, (sscanf s cclk_format)[0]? = some v →
              (sim7600_handle_cclk w (s ++ NUL :: rest)).2._sim_rtc.tm_year
                = wrap32 (wrap32 (v + 2000) - 1900))
          ∧ (∀ v, (sscanf s cclk_format)[1]? = some v →
              (sim7600_handle_cclk w (s ++ NUL :: rest)).2._sim_rtc.tm_mon = v)
          ∧ (∀ v, (sscanf s cclk_format)[2]? = some v →
              (sim7600_handle_cclk w (s ++ NUL :: rest)).2._sim_rtc.tm_mday = v)
          ∧ (∀ v, (sscanf s cclk_format)[3]? = some v →
              (sim7600_handle_cclk w (s ++ NUL :: rest)).2._sim_rtc.tm_hour = v)
          ∧ (∀ v, (sscanf s cclk_format)[4]? = some v →
              (sim7600_handle_cclk w (s ++ NUL :: rest)).2._sim_rtc.tm_min = v)
          ∧ (∀ v, (sscanf s cclk_format)[5]? = some v →
              (sim7600_handle_cclk w (s ++ NUL :: rest)).2._sim_rtc.tm_sec = v)
          ∧ (∀ v, (sscanf s cclk_format)[6]? = some v →
              (sim7600_handle_cclk w (s ++ NUL :: rest)).2._sim_rtc_timezone = Int.tdiv v 4)
          ∧ (sim7600_handle_cclk w (s ++ NUL :: rest)).2.cmd_done = w.cmd_done + 1)
      ∧ (¬ "+CBC".toList <+: s.dropWhile is_trim_char →
        ∃ line1, sim7600_handle_cbc w (s ++ NUL :: rest)
          = some ((esp_modem_process_command_done w st).1,
              (esp_modem_process_command_done w st).2, line1))
      ∧ ("+CBC".toList <+: s.dropWhile is_trim_char →
        ∀ cbc : resource_frame,
          w.bg96_dce.priv_resource = some cbc.activation → w.frame = some cbc →
          cbc.bcs ≠ cbc.voltage → cbc.bcl ≠ cbc.voltage →
          ∃ r, sim7600_handle_cbc w (s ++ NUL :: rest) = some r
            ∧ r.1 = ESP_OK
            ∧ r.2.1.bg96_dce.parent.state = st
            ∧ r.2.1.cells cbc.bcs = -1 ∧ r.2.1.cells cbc.bcl = -1
            ∧ r.2.1.cells cbc.voltage
              = wrap32 (wrap32 ((sscanf (s.dropWhile is_trim_char) cbc_format).getD 0 0 * 1000)
                  + (sscanf (s.dropWhile is_trim_char) cbc_format).getD 1 0)
            ∧ r.2.1.cmd_done = w.cmd_done + 1) := by
  have hrc : handle_result_code w s = esp_modem_process_command_done w st := by
    rcases hst with ⟨hok, e⟩ | ⟨hok, herr, e⟩
    · rw [e]
      exact handle_result_code_ok w s hok
    · rw [e]
      exact handle_result_code_error w s hok herr
  have hrc2 : handle_result_code w (s.dropWhile is_trim_char)
      = esp_modem_process_command_done w st := by
    rcases hst with ⟨hok, e⟩ | ⟨hok, herr, e⟩
    · rw [e]
      apply handle_result_code_ok
      have hok1 : MODEM_RESULT_CODE_SUCCESS <:+: s := hok
      rw [success_code_eq] at hok1 ⊢
      exact infix_dropWhile_trim _ _ (by decide) s hok1
    · rw [e]
      apply handle_result_code_error
      · exact not_infix_dropWhile_trim _ _ hok
      · have herr1 : MODEM_RESULT_CODE_ERROR <:+: s := herr
        rw [error_code_eq] at herr1 ⊢
        exact infix_dropWhile_trim _ _ (by decide) s herr1
  refine ⟨?_, ?_, ?_, ?_⟩
  · intro hpre
    have hne : ¬ strncmp s "+CCLK".toList (strlen "+CCLK".toList) = 0 :=
      fun e => hpre ((strncmp_eq_zero_iff _ _ (by decide)).mp e)
    unfold sim7600_handle_cclk
    simp only [cstr_append_nul _ _ hnul, hrc, hne, if_false]
  · intro hpre
    rw [handle_cclk_starts w s rest hnul hpre, hrc]
    refine ⟨rfl, rfl, rfl, rfl, ?_, ?_, ?_, ?_, ?_, ?_, ?_, rfl⟩
    · intro v hv
      show wrap32 (wrap32 ((sscanf s cclk_format).getD 0 w._sim_rtc.tm_year + 2000) - 1900)
        = _
      rw [getD_of_getElem? _ _ _ _ hv]
    · intro v hv
      exact getD_of_getElem? _ _ _ _ hv
    · intro v hv
      exact getD_of_getElem? _ _ _ _ hv
    · intro v hv
      exact getD_of_getElem? _ _ _ _ hv
    · intro v hv
      exact getD_of_getElem? _ _ _ _ hv
    · intro v hv
      exact getD_of_getElem? _ _ _ _ hv
    · intro v hv
      show Int.tdiv ((sscanf s cclk_format).getD 6 w._sim_rtc_timezone) 4 = _
      rw [getD_of_getElem? _ _ _ _ hv]
  · intro hpre
    have hne : ¬ strncmp (s.dropWhile is_trim_char) "+CBC".toList (strlen "+CBC".toList) = 0 :=
      fun e => hpre ((strncmp_eq_zero_iff _ _ (by decide)).mp e)
    obtain ⟨tail, hu⟩ := handle_cbc_unfold w s rest hnul
    rw [hu, if_neg hne, hrc2]
    exact ⟨_, rfl⟩
  · intro hpre cbc hp hf h1 h2
    obtain ⟨tail, hu⟩ := handle_cbc_starts w cbc s rest hnul hpre hp hf
    rw [hu, hrc2]
    exact ⟨_, rfl, rfl, rfl, store_cells_other _ _ _ _ _ _ h1, store_cells_second _ _ _ _ _ _ _ h2,
      store_cells_voltage _ _ _ _ _ _ _, rfl⟩

/-- C14, amended, at the lines `+CBC: 4.05V OK` and
`+CCLK: "24/03/05,08:15:30+28" OK` (prefix and `OK`) and `ERROR` (no
prefix). -/
theorem completion_line_parsed_when_line_starts_witness :
    ((NUL ∉ "+CBC: 4.05V OK".toList ∧ "OK".toList <:+: "+CBC: 4.05V OK".toList
        ∧ "+CBC".toList <+: "+CBC: 4.05V OK".toList.dropWhile is_trim_char
        ∧ world_cbc.bg96_dce.priv_resource = some 0
        ∧ world_cbc.frame = some ⟨0, 0, 1, 2⟩)
      ∧ ∃ r, sim7600_handle_cbc world_cbc ("+CBC: 4.05V OK".toList ++ NUL :: []) = some r
          ∧ r.1 = ESP_OK
          ∧ r.2.1.bg96_dce.parent.state = MODEM_STATE_SUCCESS
          ∧ r.2.1.cells 0 = -1 ∧ r.2.1.cells 1 = -1
          ∧ r.2.1.cells 2 = 4005
          ∧ r.2.1.cmd_done = world_cbc.cmd_done + 1)
      ∧ ((NUL ∉ "+CCLK: \"24/03/05,08:15:30+28\" OK".toList
          ∧ "OK".toList <:+: "+CCLK: \"24/03/05,08:15:30+28\" OK".toList
          ∧ "+CCLK".toList <+: "+CCLK: \"24/03/05,08:15:30+28\" OK".toList)
        ∧ (sim7600_handle_cclk world0
            ("+CCLK: \"24/03/05,08:15:30+28\" OK".toList ++ NUL :: [])).2.bg96_dce.parent.state
          = MODEM_STATE_SUCCESS
        ∧ (sim7600_handle_cclk world0
            ("+CCLK: \"24/03/05,08:15:30+28\" OK".toList ++ NUL :: [])).2._sim_rtc
          = ⟨30, 15, 8, 5, 3, 124, 0, 0, 0⟩
        ∧ (sim7600_handle_cclk world0
            ("+CCLK: \"24/03/05,08:15:30+28\" OK".toList ++ NUL :: [])).2._sim_rtc_timezone
          = 7)
      ∧ ((NUL ∉ "ERROR".toList ∧ ¬ "OK".toList <:+: "ERROR".toList
          ∧ "ERROR".toList <:+: "ERROR".toList
          ∧ ¬ "+CCLK".toList <+: "ERROR".toList
          ∧ ¬ "+CBC".toList <+: "ERROR".toList.dropWhile is_trim_char)
        ∧ sim7600_handle_cclk world0 ("ERROR".toList ++ NUL :: [])
            = esp_modem_process_command_done world0 MODEM_STATE_FAIL
        ∧ ∃ line1, sim7600_handle_cbc world0 ("ERROR".toList ++ NUL :: [])
            = some ((esp_modem_process_command_done world0 MODEM_STATE_FAIL).1,
                (esp_modem_process_command_done world0 MODEM_STATE_FAIL).2, line1)) :=
  ⟨⟨⟨by decide, by decide, by decide, rfl, rfl⟩,
      (completion_line_parsed_when_line_starts world_cbc "+CBC: 4.05V OK".toList []
        MODEM_STATE_SUCCESS (by decide) (Or.inl ⟨by decide, rfl⟩)).2.2.2 (by decide)
        ⟨0, 0, 1, 2⟩ rfl rfl (by decide) (by decide)⟩,
    ⟨⟨by decide, by decide, by decide⟩,
      ((completion_line_parsed_when_line_starts world0
        "+CCLK: \"24/03/05,08:15:30+28\" OK".toList [] MODEM_STATE_SUCCESS (by decide)
        (Or.inl ⟨by decide, rfl⟩)).2.1 (by decide)).2.1,
      ((completion_line_parsed_when_line_starts world0
        "+CCLK: \"24/03/05,08:15:30+28\" OK".toList [] MODEM_STATE_SUCCESS (by decide)
        (Or.inl ⟨by decide, rfl⟩)).2.1 (by decide)).2.2.2.1.trans (by decide),
      ((completion_line_parsed_when_line_starts world0
        "+CCLK: \"24/03/05,08:15:30+28\" OK".toList [] MODEM_STATE_SUCCESS (by decide)
        (Or.inl ⟨by decide, rfl⟩)).2.1 (by decide)).2.2.1.trans (by decide)⟩,
    ⟨by decide, by decide, by decide, by decide, by decide⟩,
    (completion_line_parsed_when_line_starts world0 "ERROR".toList []
      MODEM_STATE_FAIL (by decide) (Or.inr ⟨by decide, by decide, rfl⟩)).1 (by decide),
    (completion_line_parsed_when_line_starts world0 "ERROR".toList []
      MODEM_STATE_FAIL (by decide) (Or.inr ⟨by decide, by decide, rfl⟩)).2.2.1 (by decide)⟩

/-- C15: for every NUL-terminated line that contains neither `OK` nor `ERROR`
and starts with the parser's prefix, whatever follows the prefix, the parser
returns `ESP_OK` and leaves the DCE object, hence the completion state, as
it was, and gives no completion notification. The battery parser is run
while `priv_resource` points to the live `resource` array. -/
theorem prefix_line_leaves_completion_state (w : World) (s rest : List Char)
    (hnul : NUL ∉ s) (hok : ¬ "OK".toList <:+: s) (herr : ¬ "ERROR".toList <:+: s) :
    ("+CCLK".toList <+: s →
        (sim7600_handle_cclk w (s ++ NUL :: rest)).1 = ESP_OK
          ∧ (sim7600_handle_cclk w (s ++ NUL :: rest)).2.bg96_dce = w.bg96_dce
          ∧ (sim7600_handle_cclk w (s ++ NUL :: rest)).2.bg96_dce.parent.state
            = w.bg96_dce.parent.state
          ∧ (sim7600_handle_cclk w (s ++ NUL :: rest)).2.cmd_done = w.cmd_done)
      ∧ ("+CBC".toList <+: s →
        ∀ cbc : resource_frame,
          w.bg96_dce.priv_resource = some cbc.activation → w.frame = some cbc →
          ∃ r, sim7600_handle_cbc w (s ++ NUL :: rest) = some r
            ∧ r.1 = ESP_OK
            ∧ r.2.1.bg96_dce = w.bg96_dce
            ∧ r.2.1.bg96_dce.parent.state = w.bg96_dce.parent.state
            ∧ r.2.1.cmd_done = w.cmd_done) := by
  have hok1 : ¬ MODEM_RESULT_CODE_SUCCESS <:+: s := hok
  have herr1 : ¬ MODEM_RESULT_CODE_ERROR <:+: s := herr
  constructor
  · intro hpre
    have h0 : strncmp s "+CCLK".toList (strlen "+CCLK".toList) = 0 :=
      (strncmp_eq_zero_iff _ _ (by decide)).mpr hpre
    unfold sim7600_handle_cclk
    rw [cstr_append_nul _ _ hnul, handle_result_code_neither w s hok1 herr1, if_pos h0]
    exact ⟨rfl, rfl, rfl, rfl⟩
  · intro hpre cbc hp hf
    have hd : s.dropWhile is_trim_char = s :=
      dropWhile_trim_of_starts "+CBC".toList s (by decide) (by decide) hpre
    obtain ⟨tail, hu⟩ := handle_cbc_starts w cbc s rest hnul (by rw [hd]; exact hpre) hp hf
    rw [hu, hd, handle_result_code_neither w s hok1 herr1]
    exact ⟨_, rfl, rfl, rfl, rfl, rfl⟩

/-- C15, at the malformed replies `+CCLK: garbage` and `+CBC: xV`. -/
theorem prefix_line_leaves_completion_state_witness :
    ((NUL ∉ "+CCLK: garbage".toList ∧ ¬ "OK".toList <:+: "+CCLK: garbage".toList
        ∧ ¬ "ERROR".toList <:+: "+CCLK: garbage".toList
        ∧ "+CCLK".toList <+: "+CCLK: garbage".toList)
      ∧ (sim7600_handle_cclk world0 ("+CCLK: garbage".toList ++ NUL :: [])).1 = ESP_OK
      ∧ (sim7600_handle_cclk world0 ("+CCLK: garbage".toList ++ NUL :: [])).2.bg96_dce
          = world0.bg96_dce
      ∧ (sim7600_handle_cclk world0
          ("+CCLK: garbage".toList ++ NUL :: [])).2.bg96_dce.parent.state
          = world0.bg96_dce.parent.state
      ∧ (sim7600_handle_cclk world0 ("+CCLK: garbage".toList ++ NUL :: [])).2.cmd_done
          = world0.cmd_done)
      ∧ ((NUL ∉ "+CBC: xV".toList ∧ ¬ "OK".toList <:+: "+CBC: xV".toList
          ∧ ¬ "ERROR".toList <:+: "+CBC: xV".toList ∧ "+CBC".toList <+: "+CBC: xV".toList
          ∧ world_cbc.bg96_dce.priv_resource = some 0
          ∧ world_cbc.frame = some ⟨0, 0, 1, 2⟩)
        ∧ ∃ r, sim7600_handle_cbc world_cbc ("+CBC: xV".toList ++ NUL :: []) = some r
            ∧ r.1 = ESP_OK
            ∧ r.2.1.bg96_dce = world_cbc.bg96_dce
            ∧ r.2.1.bg96_dce.parent.state = world_cbc.bg96_dce.parent.state
            ∧ r.2.1.cmd_done = world_cbc.cmd_done) :=
  ⟨⟨⟨by decide, by decide, by decide, by decide⟩,
      (prefix_line_leaves_completion_state world0 "+CCLK: garbage".toList []
        (by decide) (by decide) (by decide)).1 (by decide)⟩,
    ⟨by decide, by decide, by decide, by decide, rfl, rfl⟩,
    (prefix_line_leaves_completion_state world_cbc "+CBC: xV".toList []
      (by decide) (by decide) (by decide)).2 (by decide) ⟨0, 0, 1, 2⟩ rfl rfl⟩

/-- C16, as stated, fails: on the line `+CCLK` the scan assigns no field, yet
`sim7600_handle_cclk` changes the year from 0 to 100 and the offset from 7
to 1; on the line `+CCLK: "24/03` the scan assigns year and month only and
the offset still changes from 7 to 1. -/
theorem cclk_unassigned_fields_counterexample :
    (sscanf "+CCLK".toList cclk_format = []
        ∧ world0._sim_rtc.tm_year = 0 ∧ world0._sim_rtc_timezone = 7
        ∧ (sim7600_handle_cclk world0 ("+CCLK".toList ++ NUL :: [])).2._sim_rtc.tm_year = 100
        ∧ (sim7600_handle_cclk world0 ("+CCLK".toList ++ NUL :: [])).2._sim_rtc_timezone = 1)
      ∧ (sscanf "+CCLK: \"24/03".toList cclk_format = [24, 3]
        ∧ (sim7600_handle_cclk world0
            ("+CCLK: \"24/03".toList ++ NUL :: [])).2._sim_rtc_timezone = 1) := by
  decide

/-- C16, amended: for every NUL-terminated line that starts with `+CCLK`,
with `k` the number of fields the scan assigned, after `sim7600_handle_cclk`
each of month, day, hour, minute and second that the scan did not assign
keeps the value it had before the line, and the fields of `_sim_rtc` that
are never scanned keep theirs; the year and the offset are post-processed
whether assigned or not: an unassigned year is rebased from its old value
(it grows by 100) and an unassigned offset is its old value divided by 4.
There is no rollback: every field the scan did assign holds the scanned
value afterwards (the year rebased, the offset divided by 4), also when a
later field could not be scanned. -/
theorem cclk_unassigned_fields (w : World) (s rest : List Char) (hnul : NUL ∉ s)
    (hpre : "+CCLK".toList <+: s) :
    ((sscanf s cclk_format).length ≤ 1 →
        (sim7600_handle_cclk w (s ++ NUL :: rest)).2._sim_rtc.tm_mon = w._sim_rtc.tm_mon)
      ∧ ((sscanf s cclk_format).length ≤ 2 →
        (sim7600_handle_cclk w (s ++ NUL :: rest)).2._sim_rtc.tm_mday = w._sim_rtc.tm_mday)
      ∧ ((sscanf s cclk_format).length ≤ 3 →
        (sim7600_handle_cclk w (s ++ NUL :: rest)).2._sim_rtc.tm_hour = w._sim_rtc.tm_hour)
      ∧ ((sscanf s cclk_format).length ≤ 4 →
        (sim7600_handle_cclk w (s ++ NUL :: rest)).2._sim_rtc.tm_min = w._sim_rtc.tm_min)
      ∧ ((sscanf s cclk_format).length ≤ 5 →
        (sim7600_handle_cclk w (s ++ NUL :: rest)).2._sim_rtc.tm_sec = w._sim_rtc.tm_sec)
      ∧ ((sim7600_handle_cclk w (s ++ NUL :: rest)).2._sim_rtc.tm_wday = w._sim_rtc.tm_wday
        ∧ (sim7600_handle_cclk w (s ++ NUL :: rest)).2._sim_rtc.tm_yday = w._sim_rtc.tm_yday
        ∧ (sim7600_handle_cclk w (s ++ NUL :: rest)).2._sim_rtc.tm_isdst
          = w._sim_rtc.tm_isdst)
      ∧ ((sscanf s cclk_format).length = 0 →
        (sim7600_handle_cclk w (s ++ NUL :: rest)).2._sim_rtc.tm_year
          = wrap32 (wrap32 (w._sim_rtc.tm_year + 2000) - 1900))
      ∧ ((sscanf s cclk_format).length ≤ 6 →
        (sim7600_handle_cclk w (s ++ NUL :: rest)).2._sim_rtc_timezone
          = Int.tdiv w._sim_rtc_timezone 4)
      ∧ (∀ v, (sscanf s cclk_format)[0]? = some v →
        (sim7600_handle_cclk w (s ++ NUL :: rest)).2._sim_rtc.tm_year
          = wrap32 (wrap32 (v + 2000) - 1900))
      ∧ (∀ v, (sscanf s cclk_format)[1]? = some v →
        (sim7600_handle_cclk w (s ++ NUL :: rest)).2._sim_rtc.tm_mon = v)
      ∧ (∀ v, (sscanf s cclk_format)[2]? = some v →
        (sim7600_handle_cclk w (s ++ NUL :: rest)).2._sim_rtc.tm_mday = v)
      ∧ (∀ v, (sscanf s cclk_format)[3]? = some v →
        (sim7600_handle_cclk w (s ++ NUL :: rest)).2._sim_rtc.tm_hour = v)
      ∧ (∀ v, (sscanf s cclk_format)[4]? = some v →
        (sim7600_handle_cclk w (s ++ NUL :: rest)).2._sim_rtc.tm_min = v)
      ∧ (∀ v, (sscanf s cclk_format)[5]? = some v →
        (sim7600_handle_cclk w (s ++ NUL :: rest)).2._sim_rtc.tm_sec = v)
      ∧ (∀ v, (sscanf s cclk_format)[6]? = some v →
        (sim7600_handle_cclk w (s ++ NUL :: rest)).2._sim_rtc_timezone = Int.tdiv v 4) := by
  rw [handle_cclk_starts w s rest hnul hpre]
  refine ⟨?_, ?_, ?_, ?_, ?_, ⟨rfl, rfl, rfl⟩, ?_, ?_, ?_, ?_, ?_, ?_, ?_, ?_, ?_⟩
  · intro hk
    exact List.getD_eq_default _ _ hk
  · intro hk
    exact List.getD_eq_default _ _ hk
  · intro hk
    exact List.getD_eq_default _ _ hk
  · intro hk
    exact List.getD_eq_default _ _ hk
  · intro hk
    exact List.getD_eq_default _ _ hk
  · intro hk
    show wrap32 (wrap32 ((sscanf s cclk_format).getD 0 w._sim_rtc.tm_year + 2000) - 1900) = _
    rw [List.getD_eq_default _ _ (by omega)]
  · intro hk
    show Int.tdiv ((sscanf s cclk_format).getD 6 w._sim_rtc_timezone) 4 = _
    rw [List.getD_eq_default _ _ hk]
  · intro v hv
    show wrap32 (wrap32 ((sscanf s cclk_format).getD 0 w._sim_rtc.tm_year + 2000) - 1900) = _
    rw [getD_of_getElem? _ _ _ _ hv]
  · intro v hv
    exact getD_of_getElem? _ _ _ _ hv
  · intro v hv
    exact getD_of_getElem? _ _ _ _ hv
  · intro v hv
    exact getD_of_getElem? _ _ _ _ hv
  · intro v hv
    exact getD_of_getElem? _ _ _ _ hv
  · intro v hv
    exact getD_of_getElem? _ _ _ _ hv
  · intro v hv
    show Int.tdiv ((sscanf s cclk_format).getD 6 w._sim_rtc_timezone) 4 = _
    rw [getD_of_getElem? _ _ _ _ hv]

/-- C16, amended, at the line `+CCLK: "24/03`, which assigns year and month
only: both are stored, the day and the second keep their values, the offset
is the old one divided by 4. -/
theorem cclk_unassigned_fields_witness :
    (NUL ∉ "+CCLK: \"24/03".toList ∧ "+CCLK".toList <+: "+CCLK: \"24/03".toList
        ∧ sscanf "+CCLK: \"24/03".toList cclk_format = [24, 3])
      ∧ (sim7600_handle_cclk world0 ("+CCLK: \"24/03".toList ++ NUL :: [])).2._sim_rtc.tm_mday
          = world0._sim_rtc.tm_mday
      ∧ (sim7600_handle_cclk world0 ("+CCLK: \"24/03".toList ++ NUL :: [])).2._sim_rtc.tm_sec
          = world0._sim_rtc.tm_sec
      ∧ (sim7600_handle_cclk world0 ("+CCLK: \"24/03".toList ++ NUL :: [])).2._sim_rtc_timezone
          = Int.tdiv world0._sim_rtc_timezone 4
      ∧ (sim7600_handle_cclk world0 ("+CCLK: \"24/03".toList ++ NUL :: [])).2._sim_rtc.tm_year
          = wrap32 (wrap32 (24 + 2000) - 1900)
      ∧ (sim7600_handle_cclk world0 ("+CCLK: \"24/03".toList ++ NUL :: [])).2._sim_rtc.tm_mon
          = 3 :=
  ⟨⟨by decide, by decide, by decide⟩,
    (cclk_unassigned_fields world0 "+CCLK: \"24/03".toList [] (by decide)
      (by decide)).2.1 (by decide),
    (cclk_unassigned_fields world0 "+CCLK: \"24/03".toList [] (by decide)
      (by decide)).2.2.2.2.1 (by decide),
    (cclk_unassigned_fields world0 "+CCLK: \"24/03".toList [] (by decide)
      (by decide)).2.2.2.2.2.2.2.1 (by decide),
    (cclk_unassigned_fields world0 "+CCLK: \"24/03".toList [] (by decide)
      (by decide)).2.2.2.2.2.2.2.2.1 24 (by decide),
    (cclk_unassigned_fields world0 "+CCLK: \"24/03".toList [] (by decide)
      (by decide)).2.2.2.2.2.2.2.2.2.1 3 (by decide)⟩

/-- C17, as stated, fails: the well-formed clock reply of 2024-03-05 preceded
by one space is not recognised by `sim7600_handle_cclk`, which returns
`ESP_FAIL` and leaves the year at 0, while the same reply without the space
stores the year 124 (2024). -/
theorem cclk_leading_space_counterexample :
    (sim7600_handle_cclk world0
        (" +CCLK: \"24/03/05,08:15:30+28\"".toList ++ NUL :: [])).1 = ESP_FAIL
      ∧ (sim7600_handle_cclk world0
          (" +CCLK: \"24/03/05,08:15:30+28\"".toList ++ NUL :: [])).2._sim_rtc
        = world0._sim_rtc
      ∧ (sim7600_handle_cclk world0
          (" +CCLK: \"24/03/05,08:15:30+28\"".toList ++ NUL :: [])).2._sim_rtc.tm_year = 0
      ∧ (sim7600_handle_cclk world0
          ("+CCLK: \"24/03/05,08:15:30+28\"".toList ++ NUL :: [])).2._sim_rtc.tm_year = 124 := by
  decide

/-- C17, amended: the clock parser does not tolerate leading white space
before its prefix test: for every well-formed clock reply preceded by one or
more spaces, tabs or newlines, `sim7600_handle_cclk` does not recognise the
`+CCLK` prefix, returns `ESP_FAIL` and leaves the whole state, the clock
reading included, as it was. -/
theorem cclk_leading_whitespace_not_recognised (w : World) (ws : List Char)
    (YY MM DD hh mm ss : Fin 100) (neg : Bool) (ZZ : Fin 100) (rest : List Char)
    (hne : ws ≠ []) (hws : ∀ c ∈ ws, is_trim_char c = true) :
    sim7600_handle_cclk w (ws ++ cclk_line YY MM DD hh mm ss neg ZZ ++ NUL :: rest)
      = (ESP_FAIL, w) := by
  have hmem : ∀ c : Char, is_trim_char c = false → isdigit c = false →
      c ∉ ['+', 'C', 'L', 'K', ':', ' ', '"', '/', ',', '-'] →
      c ∉ ws ++ cclk_line YY MM DD hh mm ss neg ZZ := by
    intro c h1 h2 h3 hm
    rcases List.mem_append.mp hm with h | h
    · exact trim_char_not_mem ws hws c h1 h
    · exact cclk_line_not_mem _ _ _ _ _ _ _ _ c h2 h3 h
  have hnul : NUL ∉ ws ++ cclk_line YY MM DD hh mm ss neg ZZ :=
    hmem _ (by decide) (by decide) (by decide)
  have hok : ¬ MODEM_RESULT_CODE_SUCCESS <:+: ws ++ cclk_line YY MM DD hh mm ss neg ZZ := by
    rw [success_code_eq]
    exact not_infix_of_not_mem _ _ _ (hmem _ (by decide) (by decide) (by decide))
  have herr : ¬ MODEM_RESULT_CODE_ERROR <:+: ws ++ cclk_line YY MM DD hh mm ss neg ZZ := by
    rw [error_code_eq]
    exact not_infix_of_not_mem _ _ _ (hmem _ (by decide) (by decide) (by decide))
  have hpre : ¬ "+CCLK".toList <+: ws ++ cclk_line YY MM DD hh mm ss neg ZZ :=
    not_starts_of_trim_head _ ws _ hne hws (by decide) (by decide)
  have hn0 : ¬ strncmp (ws ++ cclk_line YY MM DD hh mm ss neg ZZ) "+CCLK".toList
      (strlen "+CCLK".toList) = 0 :=
    fun e => hpre ((strncmp_eq_zero_iff _ _ (by decide)).mp e)
  unfold sim7600_handle_cclk
  rw [cstr_append_nul _ _ hnul, handle_result_code_neither w _ hok herr, if_neg hn0]

/-- C17, amended, at the reply of 2024-03-05 preceded by a space and a tab. -/
theorem cclk_leading_whitespace_not_recognised_witness :
    ((" \t".toList ≠ [] ∧ ∀ c ∈ " \t".toList, is_trim_char c = true)
      ∧ " \t".toList ++ cclk_line 24 3 5 8 15 30 false 28
          = " \t+CCLK: \"24/03/05,08:15:30+28\"".toList)
      ∧ sim7600_handle_cclk world0
          (" \t".toList ++ cclk_line 24 3 5 8 15 30 false 28 ++ NUL :: [])
        = (ESP_FAIL, world0) :=
  ⟨⟨⟨by decide, by decide⟩, by decide⟩,
    cclk_leading_whitespace_not_recognised world0 " \t".toList 24 3 5 8 15 30 false 28 []
      (by decide) (by decide)⟩

/-- C18, as stated, fails: the line `+CBC: 3.80V` preceded by a tab, a newline
and a space contains neither `OK` nor `ERROR`, and `sim7600_handle_cbc`
trims it, recognises the prefix and overwrites the outputs (voltage 0
before, 3080 after). -/
theorem cbc_leading_whitespace_counterexample :
    ¬ "OK".toList <:+: "\t\n +CBC: 3.80V".toList
      ∧ ¬ "ERROR".toList <:+: "\t\n +CBC: 3.80V".toList
      ∧ (∀ c ∈ "\t\n ".toList, is_trim_char c = true)
      ∧ "\t\n +CBC: 3.80V".toList = "\t\n ".toList ++ cbc_line ['3'] ['8', '0']
      ∧ world_cbc.cells 0 = 0 ∧ world_cbc.cells 1 = 0 ∧ world_cbc.cells 2 = 0
      ∧ (sim7600_handle_cbc world_cbc ("\t\n +CBC: 3.80V".toList ++ NUL :: [])).map
          (fun r => (r.1, r.2.1.cells 0, r.2.1.cells 1, r.2.1.cells 2))
        = some (ESP_OK, -1, -1, 3080) := by
  decide

/-- C18, amended: the battery parser tolerates leading white space before its
prefix test: for every battery reply `+CBC: V.FV` preceded by spaces, tabs
or newlines, V and F as in C2, `sim7600_handle_cbc` removes the white space
from the line, recognises the prefix, returns `ESP_OK` and leaves the state
that it leaves for the same reply without the white space: status -1, level
-1 and voltage V*1000 + F. -/
theorem cbc_leading_whitespace_recognised (w : World) (cbc : resource_frame)
    (ws V F rest : List Char) (hws : ∀ c ∈ ws, is_trim_char c = true)
    (hV0 : V ≠ []) (hF0 : F ≠ [])
    (hV : ∀ c ∈ V, isdigit c = true) (hF : ∀ c ∈ F, isdigit c = true)
    (hrange : decimal_value V * 1000 + decimal_value F < 2147483648)
    (hp : w.bg96_dce.priv_resource = some cbc.activation) (hf : w.frame = some cbc)
    (h1 : cbc.bcs ≠ cbc.voltage) (h2 : cbc.bcl ≠ cbc.voltage) :
    ∃ w1 line1, sim7600_handle_cbc w (ws ++ cbc_line V F ++ NUL :: rest)
        = some (ESP_OK, w1, line1)
      ∧ cstr line1 = cbc_line V F
      ∧ sim7600_handle_cbc w (cbc_line V F ++ NUL :: rest)
        = some (ESP_OK, w1, cbc_line V F ++ NUL :: rest)
      ∧ w1.cells cbc.bcs = -1 ∧ w1.cells cbc.bcl = -1
      ∧ w1.cells cbc.voltage = (decimal_value V : Int) * 1000 + (decimal_value F : Int) := by
  have hnulc : NUL ∉ cbc_line V F := cbc_line_not_mem V F hV hF _ (by decide) (by decide)
  have hnul : NUL ∉ ws ++ cbc_line V F := by
    intro hm
    rcases List.mem_append.mp hm with h | h
    · exact trim_char_not_mem ws hws _ (by decide) h
    · exact hnulc h
  have hhead : ∀ c ∈ (cbc_line V F).head?, is_trim_char c = false := by
    intro c hc
    have e : c = '+' := by
      unfold cbc_line at hc
      simpa using hc.symm
    rw [e]
    decide
  have hd : (ws ++ cbc_line V F).dropWhile is_trim_char = cbc_line V F :=
    dropWhile_trim_append ws _ hws hhead
  obtain ⟨tail, hu⟩ := handle_cbc_starts w cbc (ws ++ cbc_line V F) rest hnul
    (by rw [hd]; exact cbc_line_starts V F) hp hf
  rw [hd, handle_result_code_cbc_line w V F hV hF, sscanf_cbc_line V F hV0 hF0 hV hF,
    getD_pair_zero, getD_pair_one] at hu
  have e1 : wrap32 (decimal_value V : Int) = decimal_value V :=
    wrap32_of_range _ (by omega) (by omega)
  have e2 : wrap32 (decimal_value F : Int) = decimal_value F :=
    wrap32_of_range _ (by omega) (by omega)
  have e3 : wrap32 ((decimal_value V : Int) * 1000) = (decimal_value V : Int) * 1000 :=
    wrap32_of_range _ (by omega) (by omega)
  have e4 : wrap32 ((decimal_value V : Int) * 1000 + (decimal_value F : Int))
      = (decimal_value V : Int) * 1000 + (decimal_value F : Int) :=
    wrap32_of_range _ (by omega) (by omega)
  refine ⟨((w.store cbc.bcs (-1)).store cbc.bcl (-1)).store cbc.voltage
      (wrap32 (wrap32 (wrap32 (decimal_value V : Int) * 1000)
        + wrap32 (decimal_value F : Int))),
    cbc_line V F ++ NUL :: tail, ?_, ?_, ?_, ?_, ?_, ?_⟩
  · exact hu
  · exact cstr_append_nul _ _ hnulc
  · exact handle_cbc_line w cbc V F rest hV0 hF0 hV hF hp hf
  · exact store_cells_other _ _ _ _ _ _ h1
  · exact store_cells_second _ _ _ _ _ _ _ h2
  · rw [store_cells_voltage, e1, e2, e3, e4]

/-- C18, amended, at the reply `+CBC: 3.80V` preceded by a tab, a newline and
a space. -/
theorem cbc_leading_whitespace_recognised_witness :
    (∀ c ∈ "\t\n ".toList, is_trim_char c = true)
      ∧ ∃ w1 line1, sim7600_handle_cbc world_cbc
            ("\t\n ".toList ++ cbc_line ['3'] ['8', '0'] ++ NUL :: [])
          = some (ESP_OK, w1, line1)
        ∧ cstr line1 = cbc_line ['3'] ['8', '0']
        ∧ sim7600_handle_cbc world_cbc (cbc_line ['3'] ['8', '0'] ++ NUL :: [])
          = some (ESP_OK, w1, cbc_line ['3'] ['8', '0'] ++ NUL :: [])
        ∧ w1.cells 0 = -1 ∧ w1.cells 1 = -1 ∧ w1.cells 2 = 3080 :=
  ⟨by decide,
    cbc_leading_whitespace_recognised world_cbc ⟨0, 0, 1, 2⟩ "\t\n ".toList ['3'] ['8', '0'] []
      (by decide) (by decide) (by decide) (by decide) (by decide) (by decide) rfl rfl
      (by decide) (by decide)⟩

/-- C19, as stated, fails for the battery parser: after `sim7600_handle_cbc`
has handled the echo `AT` followed by a carriage return and preceded by a
space, the buffer holds the echo without the space and two terminators: it
is not the buffer it was. -/
theorem line_buffer_rewritten_counterexample :
    (handle_line_call line_handler.sim7600_handle_cbc world_cbc
        (" AT\r".toList ++ NUL :: [])).map (fun r => r.2.2)
      = some ("AT\r".toList ++ [NUL, NUL])
      ∧ "AT\r".toList ++ [NUL, NUL] ≠ " AT\r".toList ++ NUL :: [] := by
  decide

/-- C19, amended: the generic interpreter and the clock parser leave the line
buffer as it was. The battery parser rewrites it in place: whenever it is
run on a NUL-terminated line (with `priv_resource` pointing to the live
`resource` array when the trimmed line starts with `+CBC`), the buffer
afterwards is the one `trimLeading` leaves, of the same length, holding the
line without its leading spaces, tabs and newlines; it equals the buffer
before exactly when the line does not begin with one of these characters. -/
theorem line_buffer_after_handling (w : World) (s rest : List Char) (hnul : NUL ∉ s) :
    (∃ r w1, handle_line_call line_handler.example_default_handle w (s ++ NUL :: rest)
        = some (r, w1, s ++ NUL :: rest))
      ∧ (∃ r w1, handle_line_call line_handler.sim7600_handle_cclk w (s ++ NUL :: rest)
        = some (r, w1, s ++ NUL :: rest))
      ∧ ((¬ "+CBC".toList <+: s.dropWhile is_trim_char
            ∨ ∃ cbc : resource_frame,
                w.bg96_dce.priv_resource = some cbc.activation ∧ w.frame = some cbc) →
          ∃ r w1 buf1, handle_line_call line_handler.sim7600_handle_cbc w (s ++ NUL :: rest)
              = some (r, w1, buf1)
            ∧ trimLeading (s ++ NUL :: rest) = some buf1
            ∧ cstr buf1 = s.dropWhile is_trim_char
            ∧ buf1.length = (s ++ NUL :: rest).length
            ∧ (buf1 = s ++ NUL :: rest ↔ ∀ c ∈ s.head?, is_trim_char c = false)) := by
  refine ⟨⟨_, _, rfl⟩, ⟨_, _, rfl⟩, ?_⟩
  intro hres
  have hbody : NUL ∉ s.dropWhile is_trim_char :=
    fun hm => hnul ((List.dropWhile_suffix is_trim_char).subset hm)
  have hsome : ∃ r, sim7600_handle_cbc w (s ++ NUL :: rest) = some r := by
    by_cases hpre : "+CBC".toList <+: s.dropWhile is_trim_char
    · rcases hres with hno | ⟨cbc, hp, hf⟩
      · exact absurd hpre hno
      · obtain ⟨tail, hu⟩ := handle_cbc_starts w cbc s rest hnul hpre hp hf
        exact ⟨_, hu⟩
    · have hne : ¬ strncmp (s.dropWhile is_trim_char) "+CBC".toList
          (strlen "+CBC".toList) = 0 :=
        fun e => hpre ((strncmp_eq_zero_iff _ _ (by decide)).mp e)
      obtain ⟨tail, hu⟩ := handle_cbc_unfold w s rest hnul
      rw [if_neg hne] at hu
      exact ⟨_, hu⟩
  obtain ⟨r, hr⟩ := hsome
  have hbuf := handle_cbc_buffer w s rest hnul r hr
  obtain ⟨tail, ht1, ht2, ht3⟩ := trimLeading_result s rest hnul
  have hb : r.2.2 = s.dropWhile is_trim_char ++ NUL :: tail := by
    rw [ht1] at hbuf
    exact (Option.some.inj hbuf).symm
  have hc : cstr r.2.2 = s.dropWhile is_trim_char := by
    rw [hb]
    exact cstr_append_nul _ _ hbody
  refine ⟨r.1, r.2.1, r.2.2, hr, hbuf, hc, ?_, ?_⟩
  · rw [hb]
    simp
    omega
  · constructor
    · intro e c hcm
      have e2 : s.dropWhile is_trim_char = s := by
        rw [← hc, e]
        exact cstr_append_nul _ _ hnul
      cases s with
      | nil => simp at hcm
      | cons x t =>
        have := List.head_dropWhile_not is_trim_char (x :: t) (by rw [e2]; simp)
        simp only [e2, List.head_cons] at this
        simp only [List.head?_cons, Option.mem_def, Option.some.injEq] at hcm
        subst hcm
        simpa using this
    · intro hh
      have ht : s.takeWhile is_trim_char = [] := by
        cases s with
        | nil => rfl
        | cons x t =>
          have hx := hh x (by simp)
          simp [List.takeWhile_cons, hx]
      rw [hb, dropWhile_trim_of_head s hh, ht3 ht]

/-- C19, amended, at the echo `AT` preceded by a space. -/
theorem line_buffer_after_handling_witness :
    (NUL ∉ " AT\r".toList ∧ ¬ "+CBC".toList <+: " AT\r".toList.dropWhile is_trim_char)
      ∧ (∃ r w1, handle_line_call line_handler.example_default_handle world0
          (" AT\r".toList ++ NUL :: []) = some (r, w1, " AT\r".toList ++ NUL :: []))
      ∧ (∃ r w1, handle_line_call line_handler.sim7600_handle_cclk world0
          (" AT\r".toList ++ NUL :: []) = some (r, w1, " AT\r".toList ++ NUL :: []))
      ∧ ∃ r w1 buf1, handle_line_call line_handler.sim7600_handle_cbc world0
            (" AT\r".toList ++ NUL :: []) = some (r, w1, buf1)
          ∧ trimLeading (" AT\r".toList ++ NUL :: []) = some buf1
          ∧ cstr buf1 = " AT\r".toList.dropWhile is_trim_char
          ∧ buf1.length = (" AT\r".toList ++ NUL :: []).length
          ∧ (buf1 = " AT\r".toList ++ NUL :: []
              ↔ ∀ c ∈ " AT\r".toList.head?, is_trim_char c = false) :=
  ⟨⟨by decide, by decide⟩,
    (line_buffer_after_handling world0 " AT\r".toList [] (by decide)).1,
    (line_buffer_after_handling world0 " AT\r".toList [] (by decide)).2.1,
    (line_buffer_after_handling world0 " AT\r".toList [] (by decide)).2.2
      (Or.inl (by decide))⟩

/-- C20: for every NUL-terminated line that, after removal of leading
spaces, tabs and newlines, starts with `+CBC`, handled while `priv_resource`
points to the live `resource` array whose voltage address differs from the
other two, `sim7600_handle_cbc` returns `ESP_OK` and stores status -1 and
level -1; when the scan assigns no number it stores voltage 0, whatever the
voltage was; when it assigns the integer part `v` only it stores `v * 1000`
(wrapped to 32 bits, `v * 1000` itself for `v` up to 2147483). -/
theorem cbc_reply_without_numbers (w : World) (cbc : resource_frame) (s rest : List Char)
    (hnul : NUL ∉ s) (hpre : "+CBC".toList <+: s.dropWhile is_trim_char)
    (hp : w.bg96_dce.priv_resource = some cbc.activation) (hf : w.frame = some cbc)
    (h1 : cbc.bcs ≠ cbc.voltage) (h2 : cbc.bcl ≠ cbc.voltage) :
    ∃ r, sim7600_handle_cbc w (s ++ NUL :: rest) = some r
      ∧ r.1 = ESP_OK
      ∧ r.2.1.cells cbc.bcs = -1 ∧ r.2.1.cells cbc.bcl = -1
      ∧ (sscanf (s.dropWhile is_trim_char) cbc_format = [] → r.2.1.cells cbc.voltage = 0)
      ∧ (∀ v : Int, sscanf (s.dropWhile is_trim_char) cbc_format = [v] →
          r.2.1.cells cbc.voltage = wrap32 (v * 1000)
            ∧ (0 ≤ v → v ≤ 2147483 → r.2.1.cells cbc.voltage = v * 1000)) := by
  obtain ⟨tail, hu⟩ := handle_cbc_starts w cbc s rest hnul hpre hp hf
  refine ⟨_, hu, rfl, store_cells_other _ _ _ _ _ _ h1, store_cells_second _ _ _ _ _ _ _ h2,
    ?_, ?_⟩
  · intro h0
    have e : wrap32 (wrap32 ((sscanf (s.dropWhile is_trim_char) cbc_format).getD 0 0 * 1000)
        + (sscanf (s.dropWhile is_trim_char) cbc_format).getD 1 0) = 0 := by
      rw [h0]
      decide
    exact (store_cells_voltage _ _ _ _ _ _ _).trans e
  · intro v hv
    have e : wrap32 (wrap32 ((sscanf (s.dropWhile is_trim_char) cbc_format).getD 0 0 * 1000)
        + (sscanf (s.dropWhile is_trim_char) cbc_format).getD 1 0) = wrap32 (v * 1000) := by
      rw [hv, getD_single_zero, getD_single_one]
      exact wrap32_wrap32_add_zero (v * 1000)
    refine ⟨?_, fun hv0 hv1 => ?_⟩
    · exact (store_cells_voltage _ _ _ _ _ _ _).trans e
    · exact ((store_cells_voltage _ _ _ _ _ _ _).trans e).trans
        (wrap32_of_range _ (by omega) (by omega))

/-- C20, at the lines `+CBC`, `+CBC: xV` and `+CBC: 4`, with the voltage 3900
stored earlier. -/
theorem cbc_reply_without_numbers_witness :
    (world_cbc.store 2 3900).cells 2 = 3900
      ∧ (sscanf "+CBC".toList cbc_format = []
        ∧ ∃ r, sim7600_handle_cbc (world_cbc.store 2 3900) ("+CBC".toList ++ NUL :: [])
            = some r
          ∧ r.2.1.cells 0 = -1 ∧ r.2.1.cells 1 = -1 ∧ r.2.1.cells 2 = 0)
      ∧ (sscanf "+CBC: xV".toList cbc_format = []
        ∧ ∃ r, sim7600_handle_cbc (world_cbc.store 2 3900) ("+CBC: xV".toList ++ NUL :: [])
            = some r
          ∧ r.2.1.cells 0 = -1 ∧ r.2.1.cells 1 = -1 ∧ r.2.1.cells 2 = 0)
      ∧ (sscanf "+CBC: 4".toList cbc_format = [4]
        ∧ ∃ r, sim7600_handle_cbc (world_cbc.store 2 3900) ("+CBC: 4".toList ++ NUL :: [])
            = some r
          ∧ r.2.1.cells 0 = -1 ∧ r.2.1.cells 1 = -1 ∧ r.2.1.cells 2 = 4 * 1000) :=
  ⟨by decide,
    ⟨by decide,
      (cbc_reply_without_numbers (world_cbc.store 2 3900) ⟨0, 0, 1, 2⟩ "+CBC".toList []
        (by decide) (by decide) rfl rfl (by decide) (by decide)).imp
        (fun _ h => ⟨h.1, h.2.2.1, h.2.2.2.1, h.2.2.2.2.1 (by decide)⟩)⟩,
    ⟨by decide,
      (cbc_reply_without_numbers (world_cbc.store 2 3900) ⟨0, 0, 1, 2⟩ "+CBC: xV".toList []
        (by decide) (by decide) rfl rfl (by decide) (by decide)).imp
        (fun _ h => ⟨h.1, h.2.2.1, h.2.2.2.1, h.2.2.2.2.1 (by decide)⟩)⟩,
    ⟨by decide,
      (cbc_reply_without_numbers (world_cbc.store 2 3900) ⟨0, 0, 1, 2⟩ "+CBC: 4".toList []
        (by decide) (by decide) rfl rfl (by decide) (by decide)).imp
        (fun _ h => ⟨h.1, h.2.2.1, h.2.2.2.1,
          (h.2.2.2.2.2 4 (by decide)).2 (by decide) (by decide)⟩)⟩⟩

end Sim7600
